import Mathlib

set_option linter.all false

/-
  Verification of the Rizlax financial ledger and contract/milestone engine.

  Shallow embedding of:
  - WalletService      (escrow-wallet-service, Wallet.ts)
  - EscrowService      (escrow-wallet-service, Escrow.ts)
  - ContractService    (contract-service, services/Contract.ts)
  - MilestoneService   (contract-service, services/Milestone.ts)
  - ContractValidator  (contract-service, validators/Contract.ts)
  - MilestoneValidator (contract-service, validators/Milestone.ts)

  The Prisma store is a record of lists of rows.  Each service method becomes a
  function from the store to an outcome: the visible store state after the call
  together with an optional error.  A prisma interactive transaction is modelled
  by a body that threads the store through each write and may stop with an
  error; the transaction wrapper commits the final store on success and
  restores the initial store on error, which is exactly the rollback semantics
  the code relies on.  Monetary amounts are integers in minor units; dates are
  natural-number timestamps passed in by the caller.
-/

namespace Rizlax

/-- Prisma enum Role (CLIENT, FREELANCER, ADMIN). -/
inductive Role where
  | CLIENT
  | FREELANCER
  | ADMIN
deriving DecidableEq, Repr

/-- Prisma enum UserStatus (ACTIVE, SUSPENDED, BANNED). -/
inductive UserStatus where
  | ACTIVE
  | SUSPENDED
  | BANNED
deriving DecidableEq, Repr

/-- Prisma enum TransactionType for wallet audit rows. -/
inductive TransactionType where
  | DEPOSIT
  | WITHDRAWAL
  | HOLD
  | RELEASE
  | ADJUSTMENT
deriving DecidableEq, Repr

/-- Prisma enum EscrowTransactionType for escrow audit rows. -/
inductive EscrowTransactionType where
  | DEPOSIT
  | RELEASE
  | REFUND
deriving DecidableEq, Repr

/-- Prisma enum ContractStatus after the migration that removed CANCELED. -/
inductive ContractStatus where
  | PENDING
  | ACTIVE
  | COMPLETED
  | DISPUTED
  | TERMINATED
  | REVIEW_PENDING
deriving DecidableEq, Repr

/-- Prisma enum MilestoneStatus after the migration that added COMPLETED and REJECTED. -/
inductive MilestoneStatus where
  | PENDING
  | IN_PROGRESS
  | SUBMITTED
  | APPROVED
  | PAID
  | DISPUTED
  | CANCELED
  | COMPLETED
  | REJECTED
deriving DecidableEq, Repr

/-- User row: only the columns the services consult (id, role, status). -/
structure User where
  id : String
  role : Role
  status : UserStatus
deriving DecidableEq, Repr

/-- Wallet row: userId is unique in the schema; balances are integer minor units. -/
structure Wallet where
  id : String
  userId : String
  availableBalance : Int
  pendingBalance : Int
deriving DecidableEq, Repr

/-- WalletTransaction audit row; metadata is the source string the code stores. -/
structure WalletTransaction where
  walletId : String
  amount : Int
  type : TransactionType
  relatedId : Option String
  metadata : String
deriving DecidableEq, Repr

/-- EscrowAccount row; contractId is unique in the schema. -/
structure EscrowAccount where
  id : String
  contractId : String
  clientId : String
  freelancerId : String
  heldAmount : Int
  initialAmount : Int
deriving DecidableEq, Repr

/-- EscrowTransaction audit row. -/
structure EscrowTransaction where
  escrowAccountId : String
  amount : Int
  type : EscrowTransactionType
  sourceWalletId : Option String
  destinationWalletId : Option String
  description : String
deriving DecidableEq, Repr

/-- Contract row: the columns the contract and milestone services touch.  The
amount and currency columns are never read by the modelled operations and are
omitted. -/
structure Contract where
  id : String
  clientId : String
  freelancerId : String
  jobId : String
  status : ContractStatus
  startDate : Nat
  endDate : Option Nat
  submittedAt : Option Nat
deriving DecidableEq, Repr

/-- Milestone row.  The amount column is a double in the schema but is only
ever compared against zero, so an integer is a faithful model here. -/
structure Milestone where
  id : String
  contractId : String
  title : String
  description : Option String
  amount : Int
  dueDate : Nat
  sequence : Int
  status : MilestoneStatus
  approvedAt : Option Nat
  submittedAt : Option Nat
  disputedAt : Option Nat
  deletionRequestedAt : Option Nat
deriving DecidableEq, Repr

/-- The relational store: one list of rows per table. -/
structure Db where
  users : List User
  wallets : List Wallet
  walletTxs : List WalletTransaction
  contracts : List Contract
  escrowAccounts : List EscrowAccount
  escrowTxs : List EscrowTransaction
  milestones : List Milestone
deriving DecidableEq, Repr

/-- Every distinct throw site of the modelled services.  The escrow and wallet
services throw plain Error values with fixed messages; the contract and
milestone services throw DomainError values carrying one of these codes. -/
inductive DomainCode where
  | CONTRACT_NOT_FOUND
  | INVALID_CONTRACT_STATUS_TRANSITION
  | MILESTONE_NOT_FOUND
  | INVALID_MILESTONE_STATUS_TRANSITION
  | CONTRACT_INACTIVE
  | USER_NOT_AUTHORIZED
  | CLIENT_ONLY_ACTION
  | FREELANCER_ONLY_ACTION
  | INVALID_MILESTONE_UPDATE
  | NO_DELETION_REQUEST
  | INVALID_AMOUNT
  | INVALID_DUE_DATE
deriving DecidableEq, Repr

/-- Errors of the escrow and wallet services, one constructor per message,
plus the DomainError codes of the contract and milestone services. -/
inductive Err where
  | amountNotPositive
  | contractNotFoundE
  | escrowNotInitialized
  | unauthorizedClient
  | insufficientFunds
  | freelancerWalletInvalid
  | recordNotFound
  | domain (code : DomainCode)
deriving DecidableEq, Repr

/-- Visible result of one service call: the committed store and an optional
error.  On error the committed store equals the store before the call exactly
when the implementation never leaks a write outside its transaction. -/
structure OpOutcome where
  db : Db
  error : Option Err
deriving DecidableEq, Repr

/-- Prisma updateMany / update: rewrite every row matching the predicate. -/
def updateWhere (l : List α) (p : α → Bool) (f : α → α) : List α :=
  l.map (fun x => if p x then f x else x)

/-- Prisma interactive transaction: commit the final store of the body on
success, restore the initial store on any error (rollback). -/
def prismaTransaction (body : Db → Option Err × Db) (db : Db) : OpOutcome :=
  match body db with
  | (none, db2) => ⟨db2, none⟩
  | (some e, _) => ⟨db, some e⟩

/-- The updateMany condition of WalletService.updatePendingBalance joins the
wallet to its user and requires role FREELANCER and status ACTIVE. -/
def isActiveFreelancer (users : List User) (uid : String) : Bool :=
  match users.find? (fun u => decide (u.id = uid)) with
  | some u => decide (u.role = Role.FREELANCER ∧ u.status = UserStatus.ACTIVE)
  | none => false

namespace WalletService

/-- WalletService.updatePendingBalance (creditPending): runs inside the
callers transaction, so it is a body fragment.  A non-positive amount returns
silently; otherwise updateMany increments pendingBalance of the wallet whose
user is an ACTIVE FREELANCER, failing when no row matched, then appends a
RELEASE wallet transaction. -/
def updatePendingBalance (db : Db) (uid : String) (amount : Int) : Option Err × Db :=
  if amount ≤ 0 then (none, db)
  else
    let cnt := (db.wallets.filter
      (fun w => decide (w.userId = uid) && isActiveFreelancer db.users w.userId)).length
    if cnt = 0 then (some Err.freelancerWalletInvalid, db)
    else
      let db1 := { db with wallets := (updateWhere db.wallets
        (fun w => decide (w.userId = uid) && isActiveFreelancer db.users w.userId)
        (fun w => { w with pendingBalance := w.pendingBalance + amount })) }
      match db1.wallets.find? (fun w => decide (w.userId = uid)) with
      | some w =>
          (none, { db1 with walletTxs := (db1.walletTxs ++
            [{ walletId := w.id, amount := amount, type := TransactionType.RELEASE,
               relatedId := none, metadata := "Milestone Completion (Pending)" }]) })
      | none => (none, db1)

/-- Transaction body of WalletService.movePendingToAvailable. -/
def movePendingToAvailableBody (uid : String) (amount : Int) (db : Db) : Option Err × Db :=
  match db.wallets.find? (fun w => decide (w.userId = uid)) with
  | none => (some Err.insufficientFunds, db)
  | some w =>
    if w.pendingBalance < amount then (some Err.insufficientFunds, db)
    else
      let db1 := { db with wallets := (updateWhere db.wallets
        (fun x => decide (x.userId = uid))
        (fun x => { x with pendingBalance := x.pendingBalance - amount,
                           availableBalance := x.availableBalance + amount })) }
      (none, { db1 with walletTxs := (db1.walletTxs ++
        [{ walletId := w.id, amount := amount, type := TransactionType.ADJUSTMENT,
           relatedId := none, metadata := "Pending to Available Move" }]) })

/-- WalletService.movePendingToAvailable: a non-positive amount returns
silently before the transaction; otherwise one transaction checks the pending
balance and moves the amount to availableBalance. -/
def movePendingToAvailable (uid : String) (amount : Int) (db : Db) : OpOutcome :=
  if amount ≤ 0 then ⟨db, none⟩
  else prismaTransaction (movePendingToAvailableBody uid amount) db

/-- Transaction body of WalletService.processPayoutDeduction. -/
def processPayoutDeductionBody (uid : String) (amount : Int) (withdrawalId : String)
    (db : Db) : Option Err × Db :=
  match db.wallets.find? (fun w => decide (w.userId = uid)) with
  | none => (some Err.insufficientFunds, db)
  | some w =>
    if w.availableBalance < amount then (some Err.insufficientFunds, db)
    else
      let db1 := { db with wallets := (updateWhere db.wallets
        (fun x => decide (x.userId = uid))
        (fun x => { x with availableBalance := x.availableBalance - amount })) }
      (none, { db1 with walletTxs := (db1.walletTxs ++
        [{ walletId := w.id, amount := amount, type := TransactionType.WITHDRAWAL,
           relatedId := some withdrawalId, metadata := "Payout Deduction" }]) })

/-- WalletService.processPayoutDeduction: a non-positive amount returns
silently; otherwise one transaction checks availableBalance and deducts. -/
def processPayoutDeduction (uid : String) (amount : Int) (withdrawalId : String)
    (db : Db) : OpOutcome :=
  if amount ≤ 0 then ⟨db, none⟩
  else prismaTransaction (processPayoutDeductionBody uid amount withdrawalId) db

end WalletService

namespace EscrowService

/-- EscrowService private helper: load the contract with its escrow relation,
failing when the contract is missing or its escrow account is not
initialized. -/
def getContractWithEscrow (db : Db) (contractId : String) :
    Except Err (Contract × EscrowAccount) :=
  match db.contracts.find? (fun c => decide (c.id = contractId)) with
  | none => Except.error Err.contractNotFoundE
  | some c =>
    match db.escrowAccounts.find? (fun e => decide (e.contractId = contractId)) with
    | none => Except.error Err.escrowNotInitialized
    | some e => Except.ok (c, e)

/-- Transaction body of EscrowService.depositFunds: re-read the client wallet,
check availableBalance, deduct it, increment heldAmount of the escrow account,
then append one DEPOSIT escrow transaction and one HOLD wallet transaction. -/
def depositFundsBody (uid contractId : String) (amount : Int) (esc : EscrowAccount)
    (db : Db) : Option Err × Db :=
  match db.wallets.find? (fun w => decide (w.userId = uid)) with
  | none => (some Err.insufficientFunds, db)
  | some clientWallet =>
    if clientWallet.availableBalance < amount then (some Err.insufficientFunds, db)
    else
      let db1 := { db with wallets := (updateWhere db.wallets
        (fun x => decide (x.userId = uid))
        (fun x => { x with availableBalance := x.availableBalance - amount })) }
      let db2 := { db1 with escrowAccounts := (updateWhere db1.escrowAccounts
        (fun e => decide (e.id = esc.id))
        (fun e => { e with heldAmount := e.heldAmount + amount })) }
      let db3 := { db2 with escrowTxs := (db2.escrowTxs ++
        [({ escrowAccountId := esc.id, amount := amount,
            type := EscrowTransactionType.DEPOSIT,
            sourceWalletId := some clientWallet.id, destinationWalletId := none,
            description := "Deposit for contract " ++ contractId } : EscrowTransaction)]) }
      (none, { db3 with walletTxs := (db3.walletTxs ++
        [({ walletId := clientWallet.id, amount := amount,
            type := TransactionType.HOLD, relatedId := some contractId,
            metadata := "Escrow Deposit for Contract " ++ contractId } : WalletTransaction)]) })

/-- EscrowService.depositFunds: reject a non-positive amount, resolve contract
and escrow account, require the caller to be the contract client, then run the
deposit transaction. -/
def depositFunds (uid contractId : String) (amount : Int) (db : Db) : OpOutcome :=
  if amount ≤ 0 then ⟨db, some Err.amountNotPositive⟩
  else
    match getContractWithEscrow db contractId with
    | Except.error e => ⟨db, some e⟩
    | Except.ok (c, esc) =>
      if c.clientId ≠ uid then ⟨db, some Err.unauthorizedClient⟩
      else prismaTransaction (depositFundsBody uid contractId amount esc) db

/-- Transaction body of EscrowService.releaseFunds: re-read the escrow account,
check heldAmount, decrement it, credit the freelancer pending balance through
WalletService.updatePendingBalance, then append a RELEASE escrow transaction
when the freelancer wallet is found. -/
def releaseFundsBody (c : Contract) (esc : EscrowAccount) (contractId : String)
    (amount : Int) (db : Db) : Option Err × Db :=
  match db.escrowAccounts.find? (fun e => decide (e.id = esc.id)) with
  | none => (some Err.insufficientFunds, db)
  | some currentEscrow =>
    if currentEscrow.heldAmount < amount then (some Err.insufficientFunds, db)
    else
      let db1 := { db with escrowAccounts := (updateWhere db.escrowAccounts
        (fun e => decide (e.id = esc.id))
        (fun e => { e with heldAmount := e.heldAmount - amount })) }
      match WalletService.updatePendingBalance db1 c.freelancerId amount with
      | (some e, db2) => (some e, db2)
      | (none, db2) =>
        match db2.wallets.find? (fun w => decide (w.userId = c.freelancerId)) with
        | none => (none, db2)
        | some freelancerWallet =>
          (none, { db2 with escrowTxs := (db2.escrowTxs ++
            [({ escrowAccountId := esc.id, amount := amount,
                type := EscrowTransactionType.RELEASE,
                sourceWalletId := none,
                destinationWalletId := some freelancerWallet.id,
                description := "Funds released for Contract " ++ contractId ++
                  " milestone" } : EscrowTransaction)]) })

/-- EscrowService.releaseFunds: reject a non-positive amount, resolve contract
and escrow account, require the caller to be the contract client, then run the
release transaction. -/
def releaseFunds (uid contractId : String) (amount : Int) (db : Db) : OpOutcome :=
  if amount ≤ 0 then ⟨db, some Err.amountNotPositive⟩
  else
    match getContractWithEscrow db contractId with
    | Except.error e => ⟨db, some e⟩
    | Except.ok (c, esc) =>
      if c.clientId ≠ uid then ⟨db, some Err.unauthorizedClient⟩
      else prismaTransaction (releaseFundsBody c esc contractId amount) db

/-- Transaction body of EscrowService.refundFunds: re-read the escrow account,
check heldAmount, decrement it, credit the client availableBalance (a prisma
update on the client wallet, which errors when no such row exists), then
append one REFUND escrow transaction and one ADJUSTMENT wallet transaction. -/
def refundFundsBody (c : Contract) (esc : EscrowAccount) (contractId : String)
    (amount : Int) (isSystemRefund : Bool) (db : Db) : Option Err × Db :=
  match db.escrowAccounts.find? (fun e => decide (e.id = esc.id)) with
  | none => (some Err.insufficientFunds, db)
  | some currentEscrow =>
    if currentEscrow.heldAmount < amount then (some Err.insufficientFunds, db)
    else
      let db1 := { db with escrowAccounts := (updateWhere db.escrowAccounts
        (fun e => decide (e.id = esc.id))
        (fun e => { e with heldAmount := e.heldAmount - amount })) }
      match db1.wallets.find? (fun w => decide (w.userId = c.clientId)) with
      | none => (some Err.recordNotFound, db1)
      | some clientWallet =>
        let db2 := { db1 with wallets := (updateWhere db1.wallets
          (fun x => decide (x.userId = c.clientId))
          (fun x => { x with availableBalance := x.availableBalance + amount })) }
        let db3 := { db2 with escrowTxs := (db2.escrowTxs ++
          [({ escrowAccountId := esc.id, amount := amount,
              type := EscrowTransactionType.REFUND,
              sourceWalletId := none, destinationWalletId := some clientWallet.id,
              description := "Refund for contract " ++ contractId ++ " (System: " ++
                (if isSystemRefund then "true" else "false") ++ ")" } : EscrowTransaction)]) }
        (none, { db3 with walletTxs := (db3.walletTxs ++
          [({ walletId := clientWallet.id, amount := amount,
              type := TransactionType.ADJUSTMENT, relatedId := some contractId,
              metadata := "Escrow Refund from Contract " ++ contractId } : WalletTransaction)]) })

/-- EscrowService.refundFunds: reject a non-positive amount, resolve contract
and escrow account (no caller check), then run the refund transaction. -/
def refundFunds (contractId : String) (amount : Int) (isSystemRefund : Bool)
    (db : Db) : OpOutcome :=
  if amount ≤ 0 then ⟨db, some Err.amountNotPositive⟩
  else
    match getContractWithEscrow db contractId with
    | Except.error e => ⟨db, some e⟩
    | Except.ok (c, esc) =>
      prismaTransaction (refundFundsBody c esc contractId amount isSystemRefund) db

end EscrowService

/-- One call into the escrow engine, with its arguments. -/
inductive EscrowOp where
  | deposit (uid contractId : String) (amount : Int)
  | release (uid contractId : String) (amount : Int)
  | refund (contractId : String) (amount : Int) (isSystemRefund : Bool)
deriving DecidableEq, Repr

/-- The store visible after one escrow call, whether it succeeded or was
rejected. -/
def applyEscrowOp (op : EscrowOp) (db : Db) : Db :=
  match op with
  | EscrowOp.deposit uid contractId amount =>
      (EscrowService.depositFunds uid contractId amount db).db
  | EscrowOp.release uid contractId amount =>
      (EscrowService.releaseFunds uid contractId amount db).db
  | EscrowOp.refund contractId amount isSystemRefund =>
      (EscrowService.refundFunds contractId amount isSystemRefund db).db

/-- The store visible after a sequence of escrow calls. -/
def applyEscrowOps (ops : List EscrowOp) (db : Db) : Db :=
  ops.foldl (fun d op => applyEscrowOp op d) db

namespace ContractService

/-- VALID_TRANSITIONS of the contract service: the allowed target statuses for
each current status. -/
def VALID_TRANSITIONS : ContractStatus → List ContractStatus
  | ContractStatus.PENDING => [ContractStatus.ACTIVE, ContractStatus.TERMINATED]
  | ContractStatus.ACTIVE => [ContractStatus.REVIEW_PENDING, ContractStatus.TERMINATED]
  | ContractStatus.REVIEW_PENDING =>
      [ContractStatus.COMPLETED, ContractStatus.DISPUTED, ContractStatus.TERMINATED]
  | ContractStatus.COMPLETED => []
  | ContractStatus.DISPUTED => [ContractStatus.TERMINATED]
  | ContractStatus.TERMINATED => []

/-- ContractService.validateStatusTransition: error unless the target status is
in the allowed list for the current status. -/
def validateStatusTransition (src dst : ContractStatus) : Option Err :=
  if (VALID_TRANSITIONS src).contains dst then none
  else some (Err.domain DomainCode.INVALID_CONTRACT_STATUS_TRANSITION)

/-- Shared shape of the five contract operations: load the contract (404 when
absent), validate the transition to the fixed target, then update status plus
the side-effect fields of the transition. -/
def transitionContract (contractId : String) (dst : ContractStatus)
    (apply : Contract → Contract) (db : Db) : OpOutcome :=
  match db.contracts.find? (fun c => decide (c.id = contractId)) with
  | none => ⟨db, some (Err.domain DomainCode.CONTRACT_NOT_FOUND)⟩
  | some c =>
    match validateStatusTransition c.status dst with
    | some e => ⟨db, some e⟩
    | none =>
      ⟨{ db with contracts := (updateWhere db.contracts
          (fun x => decide (x.id = contractId)) apply) }, none⟩

/-- ContractService.startContract: transition to ACTIVE, setting startDate. -/
def startContract (contractId : String) (now : Nat) (db : Db) : OpOutcome :=
  transitionContract contractId ContractStatus.ACTIVE
    (fun c => { c with status := ContractStatus.ACTIVE, startDate := now }) db

/-- ContractService.submitWork: transition to REVIEW_PENDING, setting submittedAt. -/
def submitWork (contractId : String) (now : Nat) (db : Db) : OpOutcome :=
  transitionContract contractId ContractStatus.REVIEW_PENDING
    (fun c => { c with status := ContractStatus.REVIEW_PENDING, submittedAt := some now }) db

/-- ContractService.completeContract: transition to COMPLETED, setting endDate. -/
def completeContract (contractId : String) (now : Nat) (db : Db) : OpOutcome :=
  transitionContract contractId ContractStatus.COMPLETED
    (fun c => { c with status := ContractStatus.COMPLETED, endDate := some now }) db

/-- ContractService.disputeContract: transition to DISPUTED, no timestamp. -/
def disputeContract (contractId : String) (now : Nat) (db : Db) : OpOutcome :=
  transitionContract contractId ContractStatus.DISPUTED
    (fun c => { c with status := ContractStatus.DISPUTED }) db

/-- ContractService.terminateContract: transition to TERMINATED, setting endDate. -/
def terminateContract (contractId : String) (now : Nat) (db : Db) : OpOutcome :=
  transitionContract contractId ContractStatus.TERMINATED
    (fun c => { c with status := ContractStatus.TERMINATED, endDate := some now }) db

end ContractService

/-- ContractValidator.validateContractStatus: the parent contract must be
ACTIVE or PENDING for milestone work. -/
def validateContractStatus (c : Contract) : Option Err :=
  if c.status ≠ ContractStatus.ACTIVE ∧ c.status ≠ ContractStatus.PENDING then
    some (Err.domain DomainCode.CONTRACT_INACTIVE)
  else none

/-- ContractValidator.validateUserAccess: the caller must be the client or the
freelancer of the contract. -/
def validateUserAccess (c : Contract) (uid : String) : Option Err :=
  if ¬ (c.clientId = uid ∨ c.freelancerId = uid) then
    some (Err.domain DomainCode.USER_NOT_AUTHORIZED)
  else none

/-- ContractValidator.validateClientOnly. -/
def validateClientOnly (c : Contract) (uid : String) : Option Err :=
  if c.clientId ≠ uid then some (Err.domain DomainCode.CLIENT_ONLY_ACTION) else none

/-- ContractValidator.validateFreelancerOnly. -/
def validateFreelancerOnly (c : Contract) (uid : String) : Option Err :=
  if c.freelancerId ≠ uid then some (Err.domain DomainCode.FREELANCER_ONLY_ACTION)
  else none

/-- The role selector of withMilestoneContext, a string key in the source. -/
inductive PartyRole where
  | CLIENT
  | FREELANCER
deriving DecidableEq, Repr

/-- MilestoneDTO for milestone creation. -/
structure MilestoneDTO where
  contractId : String
  title : String
  description : Option String
  amount : Int
  dueDate : Nat
deriving DecidableEq, Repr

/-- Update payload for milestones; absent fields leave the column unchanged. -/
structure MilestonePatch where
  title : Option String
  description : Option String
  amount : Option Int
  dueDate : Option Nat
deriving DecidableEq, Repr

/-- MilestoneValidator.validateMilestoneData: amount must be positive and the
due date must not be in the past. -/
def validateMilestoneData (data : MilestoneDTO) (now : Nat) : Option Err :=
  if data.amount ≤ 0 then some (Err.domain DomainCode.INVALID_AMOUNT)
  else if data.dueDate < now then some (Err.domain DomainCode.INVALID_DUE_DATE)
  else none

/-- MilestoneValidator.validatePartialMilestoneData: present fields are checked
like validateMilestoneData. -/
def validatePartialMilestoneData (data : MilestonePatch) (now : Nat) : Option Err :=
  if (match data.amount with | some a => decide (a ≤ 0) | none => false) then
    some (Err.domain DomainCode.INVALID_AMOUNT)
  else if (match data.dueDate with | some d => decide (d < now) | none => false) then
    some (Err.domain DomainCode.INVALID_DUE_DATE)
  else none

namespace MilestoneService

/-- VALID_STATUS_TRANSITIONS of the milestone service. -/
def VALID_STATUS_TRANSITIONS : MilestoneStatus → List MilestoneStatus
  | MilestoneStatus.PENDING => [MilestoneStatus.IN_PROGRESS, MilestoneStatus.CANCELED]
  | MilestoneStatus.IN_PROGRESS => [MilestoneStatus.SUBMITTED, MilestoneStatus.CANCELED]
  | MilestoneStatus.SUBMITTED =>
      [MilestoneStatus.APPROVED, MilestoneStatus.REJECTED, MilestoneStatus.DISPUTED]
  | MilestoneStatus.APPROVED => [MilestoneStatus.PAID, MilestoneStatus.DISPUTED]
  | MilestoneStatus.PAID => [MilestoneStatus.COMPLETED]
  | MilestoneStatus.DISPUTED => [MilestoneStatus.APPROVED, MilestoneStatus.REJECTED]
  | MilestoneStatus.CANCELED => []
  | MilestoneStatus.COMPLETED => []
  | MilestoneStatus.REJECTED => [MilestoneStatus.IN_PROGRESS, MilestoneStatus.CANCELED]

/-- MilestoneService.validateStatusTransition: the bypassAdmin flag skips the
table check entirely; otherwise the target must be in the allowed list. -/
def validateStatusTransition (bypassAdmin : Bool) (src dst : MilestoneStatus) :
    Option Err :=
  if bypassAdmin then none
  else if (VALID_STATUS_TRANSITIONS src).contains dst then none
  else some (Err.domain DomainCode.INVALID_MILESTONE_STATUS_TRANSITION)

/-- MilestoneService.getAndValidateContract: load the contract and run the
three ContractValidator checks. -/
def getAndValidateContract (db : Db) (contractId uid : String) :
    Except Err Contract :=
  match db.contracts.find? (fun c => decide (c.id = contractId)) with
  | none => Except.error (Err.domain DomainCode.CONTRACT_NOT_FOUND)
  | some c =>
    match validateContractStatus c with
    | some e => Except.error e
    | none =>
      match validateUserAccess c uid with
      | some e => Except.error e
      | none => Except.ok c

/-- MilestoneService.validateAndGetContext: load the milestone by id (404 when
absent), then validate its parent contract for the caller. -/
def validateAndGetContext (db : Db) (milestoneId uid : String) :
    Except Err (Milestone × Contract) :=
  match db.milestones.find? (fun m => decide (m.id = milestoneId)) with
  | none => Except.error (Err.domain DomainCode.MILESTONE_NOT_FOUND)
  | some m =>
    match getAndValidateContract db m.contractId uid with
    | Except.error e => Except.error e
    | Except.ok c => Except.ok (m, c)

/-- The role-specific validator that withMilestoneContext dispatches to by
string key. -/
def roleCheck (role : PartyRole) (c : Contract) (uid : String) : Option Err :=
  match role with
  | PartyRole.CLIENT => validateClientOnly c uid
  | PartyRole.FREELANCER => validateFreelancerOnly c uid

/-- MilestoneService.withMilestoneContext: resolve and validate the context,
run the role check, then the callback. -/
def withMilestoneContext (db : Db) (milestoneId uid : String) (role : PartyRole)
    (k : Milestone → Contract → OpOutcome) : OpOutcome :=
  match validateAndGetContext db milestoneId uid with
  | Except.error e => ⟨db, some e⟩
  | Except.ok (m, c) =>
    match roleCheck role c uid with
    | some e => ⟨db, some e⟩
    | none => k m c

/-- MilestoneService.createMilestone: validate the contract for the client
(the source performs this lookup twice with the same result), validate the
payload, then inside one transaction count the contract milestones and insert
a new PENDING milestone with sequence count + 1. -/
def createMilestone (db : Db) (data : MilestoneDTO) (uid : String) (now : Nat)
    (newId : String) : OpOutcome :=
  match getAndValidateContract db data.contractId uid with
  | Except.error e => ⟨db, some e⟩
  | Except.ok c =>
    match validateClientOnly c uid with
    | some e => ⟨db, some e⟩
    | none =>
      match validateMilestoneData data now with
      | some e => ⟨db, some e⟩
      | none =>
        let count := (db.milestones.filter
          (fun m => decide (m.contractId = data.contractId))).length
        ⟨{ db with milestones := (db.milestones ++
          [({ id := newId, contractId := data.contractId, title := data.title,
              description := data.description, amount := data.amount,
              dueDate := data.dueDate, sequence := (count : Int) + 1,
              status := MilestoneStatus.PENDING, approvedAt := none,
              submittedAt := none, disputedAt := none,
              deletionRequestedAt := none } : Milestone)]) }, none⟩

/-- MilestoneService.getMilestones: note that the supplied contract id is
passed to withMilestoneContext as the milestone id, so the context resolution
loads a milestone row whose id equals the contract id. -/
def getMilestones (db : Db) (contractId uid : String) :
    Except Err (List Milestone) :=
  match validateAndGetContext db contractId uid with
  | Except.error e => Except.error e
  | Except.ok (_, c) =>
    match roleCheck PartyRole.CLIENT c uid with
    | some e => Except.error e
    | none =>
      Except.ok ((db.milestones.filter
        (fun m => decide (m.contractId = contractId))).mergeSort
        (fun a b => decide (a.sequence ≤ b.sequence)))

/-- MilestoneService.updateMilestone: client only, payload validation, and only
PENDING milestones may be updated; absent fields keep their column value. -/
def updateMilestone (db : Db) (milestoneId uid : String) (data : MilestonePatch)
    (now : Nat) : OpOutcome :=
  withMilestoneContext db milestoneId uid PartyRole.CLIENT (fun m _c =>
    match validatePartialMilestoneData data now with
    | some e => ⟨db, some e⟩
    | none =>
      if m.status ≠ MilestoneStatus.PENDING then
        ⟨db, some (Err.domain DomainCode.INVALID_MILESTONE_UPDATE)⟩
      else
        ⟨{ db with milestones := (updateWhere db.milestones
          (fun x => decide (x.id = milestoneId))
          (fun x => { x with title := data.title.getD x.title,
                             description := (match data.description with
                               | some d => some d | none => x.description),
                             amount := data.amount.getD x.amount,
                             dueDate := data.dueDate.getD x.dueDate })) }, none⟩)

/-- MilestoneService.markMilestoneAsApprovedByFreelancer: freelancer only,
transition to APPROVED, setting approvedAt. -/
def markMilestoneAsApprovedByFreelancer (db : Db) (milestoneId uid : String)
    (now : Nat) (bypassAdmin : Bool) : OpOutcome :=
  withMilestoneContext db milestoneId uid PartyRole.FREELANCER (fun m _c =>
    match validateStatusTransition bypassAdmin m.status MilestoneStatus.APPROVED with
    | some e => ⟨db, some e⟩
    | none =>
      ⟨{ db with milestones := (updateWhere db.milestones
        (fun x => decide (x.id = milestoneId))
        (fun x => { x with status := MilestoneStatus.APPROVED,
                           approvedAt := some now })) }, none⟩)

/-- MilestoneService.rejectMilestone: freelancer only, transition to REJECTED. -/
def rejectMilestone (db : Db) (milestoneId uid : String) (bypassAdmin : Bool) :
    OpOutcome :=
  withMilestoneContext db milestoneId uid PartyRole.FREELANCER (fun m _c =>
    match validateStatusTransition bypassAdmin m.status MilestoneStatus.REJECTED with
    | some e => ⟨db, some e⟩
    | none =>
      ⟨{ db with milestones := (updateWhere db.milestones
        (fun x => decide (x.id = milestoneId))
        (fun x => { x with status := MilestoneStatus.REJECTED })) }, none⟩)

/-- MilestoneService.submitMilestone: freelancer only, transition to SUBMITTED,
setting submittedAt. -/
def submitMilestone (db : Db) (milestoneId uid : String) (now : Nat)
    (bypassAdmin : Bool) : OpOutcome :=
  withMilestoneContext db milestoneId uid PartyRole.FREELANCER (fun m _c =>
    match validateStatusTransition bypassAdmin m.status MilestoneStatus.SUBMITTED with
    | some e => ⟨db, some e⟩
    | none =>
      ⟨{ db with milestones := (updateWhere db.milestones
        (fun x => decide (x.id = milestoneId))
        (fun x => { x with status := MilestoneStatus.SUBMITTED,
                           submittedAt := some now })) }, none⟩)

/-- MilestoneService.disputeMilestone: client only, transition to DISPUTED,
setting disputedAt. -/
def disputeMilestone (db : Db) (milestoneId uid : String) (now : Nat)
    (bypassAdmin : Bool) : OpOutcome :=
  withMilestoneContext db milestoneId uid PartyRole.CLIENT (fun m _c =>
    match validateStatusTransition bypassAdmin m.status MilestoneStatus.DISPUTED with
    | some e => ⟨db, some e⟩
    | none =>
      ⟨{ db with milestones := (updateWhere db.milestones
        (fun x => decide (x.id = milestoneId))
        (fun x => { x with status := MilestoneStatus.DISPUTED,
                           disputedAt := some now })) }, none⟩)

/-- MilestoneService.approveWorkByClient: client only, transition to COMPLETED,
setting approvedAt. -/
def approveWorkByClient (db : Db) (milestoneId uid : String) (now : Nat)
    (bypassAdmin : Bool) : OpOutcome :=
  withMilestoneContext db milestoneId uid PartyRole.CLIENT (fun m _c =>
    match validateStatusTransition bypassAdmin m.status MilestoneStatus.COMPLETED with
    | some e => ⟨db, some e⟩
    | none =>
      ⟨{ db with milestones := (updateWhere db.milestones
        (fun x => decide (x.id = milestoneId))
        (fun x => { x with status := MilestoneStatus.COMPLETED,
                           approvedAt := some now })) }, none⟩)

/-- MilestoneService.requestDeletion: client only, stamps deletionRequestedAt. -/
def requestDeletion (db : Db) (milestoneId uid : String) (now : Nat) : OpOutcome :=
  withMilestoneContext db milestoneId uid PartyRole.CLIENT (fun _m _c =>
    ⟨{ db with milestones := (updateWhere db.milestones
      (fun x => decide (x.id = milestoneId))
      (fun x => { x with deletionRequestedAt := some now })) }, none⟩)

/-- MilestoneService.acceptRequestDeletion: freelancer only; a dedicated error
when no prior deletion request was stamped, otherwise the row is deleted. -/
def acceptRequestDeletion (db : Db) (milestoneId uid : String) : OpOutcome :=
  withMilestoneContext db milestoneId uid PartyRole.FREELANCER (fun m _c =>
    match m.deletionRequestedAt with
    | none => ⟨db, some (Err.domain DomainCode.NO_DELETION_REQUEST)⟩
    | some _ =>
      ⟨{ db with milestones :=
        (db.milestones.filter (fun x => ! decide (x.id = milestoneId))) }, none⟩)

end MilestoneService

/-- One call into the milestone service, with its arguments. -/
inductive MilestoneOp where
  | create (data : MilestoneDTO) (uid : String) (now : Nat) (newId : String)
  | update (milestoneId uid : String) (data : MilestonePatch) (now : Nat)
  | approveByFreelancer (milestoneId uid : String) (now : Nat) (bypassAdmin : Bool)
  | reject (milestoneId uid : String) (bypassAdmin : Bool)
  | submit (milestoneId uid : String) (now : Nat) (bypassAdmin : Bool)
  | dispute (milestoneId uid : String) (now : Nat) (bypassAdmin : Bool)
  | approveByClient (milestoneId uid : String) (now : Nat) (bypassAdmin : Bool)
  | requestDeletion (milestoneId uid : String) (now : Nat)
  | acceptRequestDeletion (milestoneId uid : String)
deriving DecidableEq, Repr

/-- Whether the call is the accept-deletion operation, the one operation that
removes a milestone row. -/
def MilestoneOp.isAcceptDeletion : MilestoneOp → Bool
  | MilestoneOp.acceptRequestDeletion _ _ => true
  | _ => false

/-- The store visible after one milestone call, whether it succeeded or was
rejected. -/
def applyMilestoneOp (op : MilestoneOp) (db : Db) : Db :=
  match op with
  | MilestoneOp.create data uid now newId =>
      (MilestoneService.createMilestone db data uid now newId).db
  | MilestoneOp.update milestoneId uid data now =>
      (MilestoneService.updateMilestone db milestoneId uid data now).db
  | MilestoneOp.approveByFreelancer milestoneId uid now bypassAdmin =>
      (MilestoneService.markMilestoneAsApprovedByFreelancer db milestoneId uid now bypassAdmin).db
  | MilestoneOp.reject milestoneId uid bypassAdmin =>
      (MilestoneService.rejectMilestone db milestoneId uid bypassAdmin).db
  | MilestoneOp.submit milestoneId uid now bypassAdmin =>
      (MilestoneService.submitMilestone db milestoneId uid now bypassAdmin).db
  | MilestoneOp.dispute milestoneId uid now bypassAdmin =>
      (MilestoneService.disputeMilestone db milestoneId uid now bypassAdmin).db
  | MilestoneOp.approveByClient milestoneId uid now bypassAdmin =>
      (MilestoneService.approveWorkByClient db milestoneId uid now bypassAdmin).db
  | MilestoneOp.requestDeletion milestoneId uid now =>
      (MilestoneService.requestDeletion db milestoneId uid now).db
  | MilestoneOp.acceptRequestDeletion milestoneId uid =>
      (MilestoneService.acceptRequestDeletion db milestoneId uid).db

/-- The store visible after a sequence of milestone calls. -/
def applyMilestoneOps (ops : List MilestoneOp) (db : Db) : Db :=
  ops.foldl (fun d op => applyMilestoneOp op d) db

/-- Sum of the amounts of the escrow transactions of one account and type:
the sigma quantities of the ledger reconciliation invariant. -/
def escrowSumTx (txs : List EscrowTransaction) (aid : String)
    (ty : EscrowTransactionType) : Int :=
  ((txs.filter (fun t => decide (t.escrowAccountId = aid ∧ t.type = ty))).map
    (fun t => t.amount)).sum

/-- The ledger reconciliation invariant: escrow account ids are unique (the id
is the primary key), and each accounts heldAmount equals initialAmount plus
recorded deposits minus releases minus refunds, and is never negative.  A
freshly created account satisfies it: the migration defaults are
held_amount 0 and initial_amount 0 with no transactions. -/
def escrowLedgerOk (db : Db) : Prop :=
  (db.escrowAccounts.map (fun e => e.id)).Nodup ∧
  ∀ e ∈ db.escrowAccounts,
    (e.heldAmount = e.initialAmount
      + escrowSumTx db.escrowTxs e.id EscrowTransactionType.DEPOSIT
      - escrowSumTx db.escrowTxs e.id EscrowTransactionType.RELEASE
      - escrowSumTx db.escrowTxs e.id EscrowTransactionType.REFUND)
    ∧ 0 ≤ e.heldAmount

/-- The sequences of the milestones of one contract, in row order. -/
def milestoneSeqs (db : Db) (cid : String) : List Int :=
  (db.milestones.filter (fun m => decide (m.contractId = cid))).map
    (fun m => m.sequence)

/-- The list 1, 2, ..., n. -/
def seqRange (n : Nat) : List Int :=
  (List.range n).map (fun i => Int.ofNat i + 1)

/-- The milestones of the contract carry sequences exactly 1..count, which is
what repeated creation without deletion produces. -/
def seqContiguous (db : Db) (cid : String) : Prop :=
  milestoneSeqs db cid = seqRange (milestoneSeqs db cid).length

/-- A concrete store used by the witnesses: an ACTIVE client and an ACTIVE
freelancer, their wallets, one ACTIVE contract with an initialized escrow
account, and two PENDING milestones, the first with a stamped deletion
request. -/
def sampleDb : Db :=
  { users := [⟨"uc", Role.CLIENT, UserStatus.ACTIVE⟩,
              ⟨"uf", Role.FREELANCER, UserStatus.ACTIVE⟩],
    wallets := [⟨"wc", "uc", 15000, 0⟩, ⟨"wf", "uf", 0, 0⟩],
    walletTxs := [],
    contracts := [⟨"ct", "uc", "uf", "j", ContractStatus.ACTIVE, 0, none, none⟩],
    escrowAccounts := [⟨"ea", "ct", "uc", "uf", 0, 0⟩],
    escrowTxs := [],
    milestones :=
      [⟨"m1", "ct", "t1", none, 100, 50, 1, MilestoneStatus.PENDING,
        none, none, none, some 5⟩,
       ⟨"m2", "ct", "t2", none, 100, 50, 2, MilestoneStatus.PENDING,
        none, none, none, none⟩] }

/-- The run that exhibits sequence reuse: the freelancer accepts the requested
deletion of the first milestone, then the client creates a new one. -/
def deleteThenCreateOps : List MilestoneOp :=
  [MilestoneOp.acceptRequestDeletion "m1" "uf",
   MilestoneOp.create ⟨"ct", "t3", none, 100, 99⟩ "uc" 50 "m3"]

/-- A wallet operation whose balance check and decrement target
availableBalance: a payout deduction, or an escrow deposit drawn from the
callers wallet.  These are the two operations of the system that deduct from
availableBalance; movePendingToAvailable checks and deducts pendingBalance
instead and is treated alongside. -/
inductive AvailableDrawOp where
  | payout (withdrawalId : String) (amount : Int)
  | escrowDeposit (contractId : String) (amount : Int)
deriving DecidableEq, Repr

/-- The amount the operation deducts from availableBalance when it succeeds. -/
def AvailableDrawOp.amount : AvailableDrawOp → Int
  | AvailableDrawOp.payout _ a => a
  | AvailableDrawOp.escrowDeposit _ a => a

/-- Run one availableBalance-decrementing operation for the given user. -/
def applyAvailableDrawOp (uid : String) (op : AvailableDrawOp) (db : Db) : OpOutcome :=
  match op with
  | AvailableDrawOp.payout withdrawalId a =>
      WalletService.processPayoutDeduction uid a withdrawalId db
  | AvailableDrawOp.escrowDeposit contractId a =>
      EscrowService.depositFunds uid contractId a db

/-- A concrete store whose freelancer wallet holds pending funds, for the
pending-balance half of the over-withdrawal witness. -/
def samplePendingDb : Db :=
  { users := [⟨"uc", Role.CLIENT, UserStatus.ACTIVE⟩,
              ⟨"uf", Role.FREELANCER, UserStatus.ACTIVE⟩],
    wallets := [⟨"wc", "uc", 5000, 0⟩, ⟨"wf", "uf", 0, 4000⟩],
    walletTxs := [],
    contracts := [⟨"ct", "uc", "uf", "j", ContractStatus.ACTIVE, 0, none, none⟩],
    escrowAccounts := [⟨"ea", "ct", "uc", "uf", 0, 0⟩],
    escrowTxs := [],
    milestones := [] }

/-
  Helper lemmas about the store primitives.
-/

lemma updateWhere_cons {α : Type} (a : α) (t : List α) (p : α → Bool) (f : α → α) :
    updateWhere (a :: t) p f = (if p a then f a else a) :: updateWhere t p f := rfl

lemma updateWhere_map_key {α β : Type} (l : List α) (p : α → Bool) (f : α → α)
    (k : α → β) (h : ∀ x, p x = true → k (f x) = k x) :
    (updateWhere l p f).map k = l.map k := by
  unfold updateWhere
  rw [List.map_map]
  apply List.map_congr_left
  intro x _
  by_cases hx : p x = true
  · simp [Function.comp, hx, h x hx]
  · simp [Function.comp, hx]

lemma find?_updateWhere_self {α : Type} (l : List α) (p : α → Bool) (f : α → α)
    (hf : ∀ x, p (f x) = p x) (w : α) (h : l.find? p = some w) :
    (updateWhere l p f).find? p = some (f w) := by
  induction l with
  | nil => simp at h
  | cons a t ih =>
    simp only [updateWhere, List.map_cons]
    by_cases ha : p a = true
    · rw [List.find?_cons_of_pos _ ha] at h
      cases h
      rw [if_pos ha]
      exact List.find?_cons_of_pos _ (by rw [hf]; exact ha)
    · rw [List.find?_cons_of_neg _ ha] at h
      rw [if_neg ha, List.find?_cons_of_neg _ ha]
      exact ih h

lemma updateWhere_congr {α : Type} (l : List α) (p q : α → Bool) (f : α → α)
    (h : ∀ x, p x = q x) : updateWhere l p f = updateWhere l q f := by
  unfold updateWhere
  apply List.map_congr_left
  intro x _
  rw [h]

lemma find?_updateWhere_disjoint {α : Type} (l : List α) (p q : α → Bool)
    (f : α → α) (hq : ∀ x, q (f x) = q x) (hdisj : ∀ x, p x = true → q x = false) :
    (updateWhere l p f).find? q = l.find? q := by
  induction l with
  | nil => rfl
  | cons a t ih =>
    simp only [updateWhere, List.map_cons]
    by_cases ha : p a = true
    · have hqa : q a = false := hdisj a ha
      rw [if_pos ha]
      rw [List.find?_cons_of_neg _ (by simp [hq, hqa])]
      rw [List.find?_cons_of_neg _ (by simp [hqa])]
      exact ih
    · rw [if_neg ha]
      by_cases hqa : q a = true
      · rw [List.find?_cons_of_pos _ hqa, List.find?_cons_of_pos _ hqa]
      · rw [List.find?_cons_of_neg _ hqa, List.find?_cons_of_neg _ hqa]
        exact ih

lemma eq_of_mem_nodup_key {α β : Type} (l : List α) (k : α → β)
    (h : (l.map k).Nodup) {a b : α} (ha : a ∈ l) (hb : b ∈ l) (hk : k a = k b) :
    a = b :=
  List.inj_on_of_nodup_map h ha hb hk

lemma escrowSumTx_append (txs : List EscrowTransaction) (t : EscrowTransaction)
    (aid : String) (ty : EscrowTransactionType) :
    escrowSumTx (txs ++ [t]) aid ty
      = escrowSumTx txs aid ty
        + (if t.escrowAccountId = aid ∧ t.type = ty then t.amount else 0) := by
  unfold escrowSumTx
  rw [List.filter_append]
  by_cases h : t.escrowAccountId = aid ∧ t.type = ty
  · simp [h]
  · simp [h]

lemma find?_filter_not_none {α : Type} (l : List α) (p : α → Bool) :
    (l.filter (fun x => ! p x)).find? p = none := by
  rw [List.find?_eq_none]
  intro x hx
  have := (List.mem_filter.mp hx).2
  simp at this
  simp [this]

/-
  C10.  getMilestones resolves its context through a milestone row whose id is
  the supplied contract id.
-/

/-- Claim C10: getMilestones loads a Milestone row whose id equals the supplied
contractId to resolve its context, so whenever no milestone row carries the
contract id, the call fails with MILESTONE_NOT_FOUND instead of returning the
contract milestones, even when the contract exists, has milestones, and the
caller is a party to it. -/
theorem claim_C10_getMilestones_notFound (db : Db) (contractId uid : String)
    (h : db.milestones.find? (fun m => decide (m.id = contractId)) = none) :
    MilestoneService.getMilestones db contractId uid
      = Except.error (Err.domain DomainCode.MILESTONE_NOT_FOUND) := by
  unfold MilestoneService.getMilestones MilestoneService.validateAndGetContext
  rw [h]

/-- Witness for C10 on the sample store: contract ct exists, is ACTIVE, has two
milestones, the caller uc is its client, and no milestone has id ct; the call
still fails with MILESTONE_NOT_FOUND. -/
theorem claim_C10_witness :
    sampleDb.milestones.find? (fun m => decide (m.id = "ct")) = none ∧
    (sampleDb.contracts.find? (fun c => decide (c.id = "ct"))).isSome = true ∧
    MilestoneService.getMilestones sampleDb "ct" "uc"
      = Except.error (Err.domain DomainCode.MILESTONE_NOT_FOUND) :=
  ⟨by decide, by decide, claim_C10_getMilestones_notFound sampleDb "ct" "uc" (by decide)⟩

/-
  C8.  The three WalletService entry points silently return on a non-positive
  amount instead of failing with a validation error.
-/

/-- Counterexample to claim C8: at amount 0 none of the three WalletLedger
operations fails.  Each returns with no error and the store unchanged, while
the claim requires a ValidationError. -/
theorem claim_C8_counterexample :
    WalletService.updatePendingBalance sampleDb "uf" 0 = (none, sampleDb) ∧
    WalletService.movePendingToAvailable "uf" 0 sampleDb = ⟨sampleDb, none⟩ ∧
    WalletService.processPayoutDeduction "uf" 0 "wd1" sampleDb = ⟨sampleDb, none⟩ := by
  refine ⟨rfl, rfl, rfl⟩

/-- Amended claim C8: a non-positive amount makes each WalletLedger operation
return silently, with no error, no balance change and no WalletTransaction
row: the guard is if amount is at most zero then return. -/
theorem claim_C8_amended_silent_return (db : Db) (uid wid : String) (amount : Int)
    (h : amount ≤ 0) :
    WalletService.updatePendingBalance db uid amount = (none, db) ∧
    WalletService.movePendingToAvailable uid amount db = ⟨db, none⟩ ∧
    WalletService.processPayoutDeduction uid amount wid db = ⟨db, none⟩ := by
  unfold WalletService.updatePendingBalance WalletService.movePendingToAvailable
    WalletService.processPayoutDeduction
  simp [h]

/-- Witness for the amended C8 at amount -5 on the sample store. -/
theorem claim_C8_amended_witness :
    ((-5 : Int) ≤ 0) ∧
    (WalletService.updatePendingBalance sampleDb "uf" (-5) = (none, sampleDb) ∧
     WalletService.movePendingToAvailable "uf" (-5) sampleDb = ⟨sampleDb, none⟩ ∧
     WalletService.processPayoutDeduction "uf" (-5) "wd1" sampleDb = ⟨sampleDb, none⟩) :=
  ⟨by decide, claim_C8_amended_silent_return sampleDb "uf" "wd1" (-5) (by decide)⟩

/-
  C2.  Invalid status transitions are rejected with no mutation.
-/

lemma transitionContract_invalid (db : Db) (contractId : String)
    (dst : ContractStatus) (apply : Contract → Contract) (c : Contract)
    (hc : db.contracts.find? (fun x => decide (x.id = contractId)) = some c)
    (hns : (ContractService.VALID_TRANSITIONS c.status).contains dst = false) :
    ContractService.transitionContract contractId dst apply db
      = ⟨db, some (Err.domain DomainCode.INVALID_CONTRACT_STATUS_TRANSITION)⟩ := by
  unfold ContractService.transitionContract
  rw [hc]
  have hmem : dst ∉ ContractService.VALID_TRANSITIONS c.status := by
    simpa using hns
  simp [ContractService.validateStatusTransition, hmem]

lemma validateAndGetContext_ok (db : Db) (mid uid : String) (m : Milestone)
    (c : Contract)
    (hm : db.milestones.find? (fun x => decide (x.id = mid)) = some m)
    (hc : db.contracts.find? (fun x => decide (x.id = m.contractId)) = some c)
    (hst : c.status = ContractStatus.ACTIVE ∨ c.status = ContractStatus.PENDING)
    (hacc : c.clientId = uid ∨ c.freelancerId = uid) :
    MilestoneService.validateAndGetContext db mid uid = Except.ok (m, c) := by
  unfold MilestoneService.validateAndGetContext MilestoneService.getAndValidateContract
  rw [hm]
  unfold validateContractStatus validateUserAccess
  rcases hst with hst | hst <;> rcases hacc with hacc | hacc <;> simp [hc, hst, hacc]

lemma withMilestoneContext_client (db : Db) (mid uid : String) (m : Milestone)
    (c : Contract) (k : Milestone → Contract → OpOutcome)
    (hm : db.milestones.find? (fun x => decide (x.id = mid)) = some m)
    (hc : db.contracts.find? (fun x => decide (x.id = m.contractId)) = some c)
    (hst : c.status = ContractStatus.ACTIVE ∨ c.status = ContractStatus.PENDING)
    (hcl : c.clientId = uid) :
    MilestoneService.withMilestoneContext db mid uid PartyRole.CLIENT k = k m c := by
  unfold MilestoneService.withMilestoneContext
  rw [validateAndGetContext_ok db mid uid m c hm hc hst (Or.inl hcl)]
  unfold MilestoneService.roleCheck validateClientOnly
  simp [hcl]

lemma withMilestoneContext_freelancer (db : Db) (mid uid : String) (m : Milestone)
    (c : Contract) (k : Milestone → Contract → OpOutcome)
    (hm : db.milestones.find? (fun x => decide (x.id = mid)) = some m)
    (hc : db.contracts.find? (fun x => decide (x.id = m.contractId)) = some c)
    (hst : c.status = ContractStatus.ACTIVE ∨ c.status = ContractStatus.PENDING)
    (hfl : c.freelancerId = uid) :
    MilestoneService.withMilestoneContext db mid uid PartyRole.FREELANCER k = k m c := by
  unfold MilestoneService.withMilestoneContext
  rw [validateAndGetContext_ok db mid uid m c hm hc hst (Or.inr hfl)]
  unfold MilestoneService.roleCheck validateFreelancerOnly
  simp [hfl]

lemma milestone_validateStatusTransition_invalid (src dst : MilestoneStatus)
    (hns : (MilestoneService.VALID_STATUS_TRANSITIONS src).contains dst = false) :
    MilestoneService.validateStatusTransition false src dst
      = some (Err.domain DomainCode.INVALID_MILESTONE_STATUS_TRANSITION) := by
  have hmem : dst ∉ MilestoneService.VALID_STATUS_TRANSITIONS src := by
    simpa using hns
  simp [MilestoneService.validateStatusTransition, hmem]

/-- Claim C2: every (from, to) pair outside the contract transition table makes
the targeting operation fail with the invalid-transition error and leave the
store untouched, and likewise for the five milestone transition operations
when the admin bypass flag is off. -/
theorem claim_C2_invalid_transitions_rejected :
    (∀ db contractId now c,
      db.contracts.find? (fun x => decide (x.id = contractId)) = some c →
      ((ContractService.VALID_TRANSITIONS c.status).contains ContractStatus.ACTIVE = false →
        ContractService.startContract contractId now db
          = ⟨db, some (Err.domain DomainCode.INVALID_CONTRACT_STATUS_TRANSITION)⟩) ∧
      ((ContractService.VALID_TRANSITIONS c.status).contains ContractStatus.REVIEW_PENDING = false →
        ContractService.submitWork contractId now db
          = ⟨db, some (Err.domain DomainCode.INVALID_CONTRACT_STATUS_TRANSITION)⟩) ∧
      ((ContractService.VALID_TRANSITIONS c.status).contains ContractStatus.COMPLETED = false →
        ContractService.completeContract contractId now db
          = ⟨db, some (Err.domain DomainCode.INVALID_CONTRACT_STATUS_TRANSITION)⟩) ∧
      ((ContractService.VALID_TRANSITIONS c.status).contains ContractStatus.DISPUTED = false →
        ContractService.disputeContract contractId now db
          = ⟨db, some (Err.domain DomainCode.INVALID_CONTRACT_STATUS_TRANSITION)⟩) ∧
      ((ContractService.VALID_TRANSITIONS c.status).contains ContractStatus.TERMINATED = false →
        ContractService.terminateContract contractId now db
          = ⟨db, some (Err.domain DomainCode.INVALID_CONTRACT_STATUS_TRANSITION)⟩)) ∧
    (∀ db mid uid now m c,
      db.milestones.find? (fun x => decide (x.id = mid)) = some m →
      db.contracts.find? (fun x => decide (x.id = m.contractId)) = some c →
      (c.status = ContractStatus.ACTIVE ∨ c.status = ContractStatus.PENDING) →
      ((c.freelancerId = uid →
        (MilestoneService.VALID_STATUS_TRANSITIONS m.status).contains MilestoneStatus.APPROVED = false →
        MilestoneService.markMilestoneAsApprovedByFreelancer db mid uid now false
          = ⟨db, some (Err.domain DomainCode.INVALID_MILESTONE_STATUS_TRANSITION)⟩) ∧
      (c.freelancerId = uid →
        (MilestoneService.VALID_STATUS_TRANSITIONS m.status).contains MilestoneStatus.REJECTED = false →
        MilestoneService.rejectMilestone db mid uid false
          = ⟨db, some (Err.domain DomainCode.INVALID_MILESTONE_STATUS_TRANSITION)⟩) ∧
      (c.freelancerId = uid →
        (MilestoneService.VALID_STATUS_TRANSITIONS m.status).contains MilestoneStatus.SUBMITTED = false →
        MilestoneService.submitMilestone db mid uid now false
          = ⟨db, some (Err.domain DomainCode.INVALID_MILESTONE_STATUS_TRANSITION)⟩) ∧
      (c.clientId = uid →
        (MilestoneService.VALID_STATUS_TRANSITIONS m.status).contains MilestoneStatus.DISPUTED = false →
        MilestoneService.disputeMilestone db mid uid now false
          = ⟨db, some (Err.domain DomainCode.INVALID_MILESTONE_STATUS_TRANSITION)⟩) ∧
      (c.clientId = uid →
        (MilestoneService.VALID_STATUS_TRANSITIONS m.status).contains MilestoneStatus.COMPLETED = false →
        MilestoneService.approveWorkByClient db mid uid now false
          = ⟨db, some (Err.domain DomainCode.INVALID_MILESTONE_STATUS_TRANSITION)⟩))) := by
  constructor
  · intro db contractId now c hc
    exact ⟨fun hns => transitionContract_invalid db contractId _ _ c hc hns,
           fun hns => transitionContract_invalid db contractId _ _ c hc hns,
           fun hns => transitionContract_invalid db contractId _ _ c hc hns,
           fun hns => transitionContract_invalid db contractId _ _ c hc hns,
           fun hns => transitionContract_invalid db contractId _ _ c hc hns⟩
  · intro db mid uid now m c hm hc hst
    refine ⟨fun hfl hns => ?_, fun hfl hns => ?_, fun hfl hns => ?_,
            fun hcl hns => ?_, fun hcl hns => ?_⟩
    · unfold MilestoneService.markMilestoneAsApprovedByFreelancer
      rw [withMilestoneContext_freelancer db mid uid m c _ hm hc hst hfl,
          milestone_validateStatusTransition_invalid _ _ hns]
    · unfold MilestoneService.rejectMilestone
      rw [withMilestoneContext_freelancer db mid uid m c _ hm hc hst hfl,
          milestone_validateStatusTransition_invalid _ _ hns]
    · unfold MilestoneService.submitMilestone
      rw [withMilestoneContext_freelancer db mid uid m c _ hm hc hst hfl,
          milestone_validateStatusTransition_invalid _ _ hns]
    · unfold MilestoneService.disputeMilestone
      rw [withMilestoneContext_client db mid uid m c _ hm hc hst hcl,
          milestone_validateStatusTransition_invalid _ _ hns]
    · unfold MilestoneService.approveWorkByClient
      rw [withMilestoneContext_client db mid uid m c _ hm hc hst hcl,
          milestone_validateStatusTransition_invalid _ _ hns]

/-- Witness for C2 on the sample store: the ACTIVE contract ct cannot be
started again, and the PENDING milestone m2 cannot be submitted (PENDING
allows only IN_PROGRESS and CANCELED); both calls return the unchanged store
with the invalid-transition error. -/
theorem claim_C2_witness :
    ContractService.startContract "ct" 7 sampleDb
      = ⟨sampleDb, some (Err.domain DomainCode.INVALID_CONTRACT_STATUS_TRANSITION)⟩ ∧
    MilestoneService.submitMilestone sampleDb "m2" "uf" 9 false
      = ⟨sampleDb, some (Err.domain DomainCode.INVALID_MILESTONE_STATUS_TRANSITION)⟩ := by
  constructor
  · exact ((claim_C2_invalid_transitions_rejected.1 sampleDb "ct" 7
      ⟨"ct", "uc", "uf", "j", ContractStatus.ACTIVE, 0, none, none⟩ (by decide)).1 (by decide))
  · exact (((claim_C2_invalid_transitions_rejected.2 sampleDb "m2" "uf" 9
      ⟨"m2", "ct", "t2", none, 100, 50, 2, MilestoneStatus.PENDING, none, none, none, none⟩
      ⟨"ct", "uc", "uf", "j", ContractStatus.ACTIVE, 0, none, none⟩
      (by decide) (by decide) (Or.inl (by decide))).2.2.1) (by decide) (by decide))

/-
  C9.  The two-phase deletion handshake.
-/

lemma withMilestoneContext_cases (db : Db) (mid uid : String) (role : PartyRole)
    (k : Milestone → Contract → OpOutcome) :
    (∃ e, MilestoneService.withMilestoneContext db mid uid role k = ⟨db, some e⟩) ∨
    (∃ m c, MilestoneService.withMilestoneContext db mid uid role k = k m c) := by
  cases hctx : MilestoneService.validateAndGetContext db mid uid with
  | error e =>
    refine Or.inl ⟨e, ?_⟩
    unfold MilestoneService.withMilestoneContext
    rw [hctx]
  | ok mc =>
    obtain ⟨m, c⟩ := mc
    cases hrole : MilestoneService.roleCheck role c uid with
    | none =>
      refine Or.inr ⟨m, c, ?_⟩
      unfold MilestoneService.withMilestoneContext
      rw [hctx]
      simp [hrole]
    | some e =>
      refine Or.inl ⟨e, ?_⟩
      unfold MilestoneService.withMilestoneContext
      rw [hctx]
      simp [hrole]

lemma ids_preserved_wmc (db : Db) (mid uid : String) (role : PartyRole)
    (k : Milestone → Contract → OpOutcome)
    (hk : ∀ m c i, i ∈ db.milestones.map (fun x => x.id) →
      i ∈ (k m c).db.milestones.map (fun x => x.id)) :
    ∀ i ∈ db.milestones.map (fun x => x.id),
      i ∈ (MilestoneService.withMilestoneContext db mid uid role k).db.milestones.map
        (fun x => x.id) := by
  intro i hi
  rcases withMilestoneContext_cases db mid uid role k with ⟨e, h⟩ | ⟨m, c, h⟩
  · rw [h]; exact hi
  · rw [h]; exact hk m c i hi

lemma mem_ids_updateWhere (l : List Milestone) (p : Milestone → Bool)
    (f : Milestone → Milestone) (hf : ∀ x, (f x).id = x.id) (i : String) :
    i ∈ (updateWhere l p f).map (fun m => m.id) ↔ i ∈ l.map (fun m => m.id) := by
  rw [updateWhere_map_key l p f (fun m => m.id) (fun x _ => hf x)]

/-- Claim C9: acceptRequestDeletion by the contract freelancer fails with
NO_DELETION_REQUEST and leaves the store unchanged when deletionRequestedAt
was never stamped; when a request exists it deletes exactly the milestone row;
and no other milestone-service operation ever removes a milestone row. -/
theorem claim_C9_deletion_handshake :
    (∀ db mid uid m c,
      MilestoneService.validateAndGetContext db mid uid = Except.ok (m, c) →
      c.freelancerId = uid →
      m.deletionRequestedAt = none →
      MilestoneService.acceptRequestDeletion db mid uid
        = ⟨db, some (Err.domain DomainCode.NO_DELETION_REQUEST)⟩) ∧
    (∀ db mid uid m c t,
      MilestoneService.validateAndGetContext db mid uid = Except.ok (m, c) →
      c.freelancerId = uid →
      m.deletionRequestedAt = some t →
      MilestoneService.acceptRequestDeletion db mid uid
        = ⟨{ db with milestones :=
            (db.milestones.filter (fun x => ! decide (x.id = mid))) }, none⟩ ∧
      ((MilestoneService.acceptRequestDeletion db mid uid).db.milestones.find?
        (fun x => decide (x.id = mid)) = none)) ∧
    (∀ (op : MilestoneOp) (db : Db), op.isAcceptDeletion = false →
      ∀ i ∈ db.milestones.map (fun m => m.id),
        i ∈ (applyMilestoneOp op db).milestones.map (fun m => m.id)) := by
  have hctx : ∀ (db : Db) (mid uid : String) m c,
      MilestoneService.validateAndGetContext db mid uid = Except.ok (m, c) →
      c.freelancerId = uid →
      ∀ k, MilestoneService.withMilestoneContext db mid uid PartyRole.FREELANCER k = k m c := by
    intro db mid uid m c hok hfl k
    unfold MilestoneService.withMilestoneContext
    rw [hok]
    unfold MilestoneService.roleCheck validateFreelancerOnly
    simp [hfl]
  refine ⟨?_, ?_, ?_⟩
  · intro db mid uid m c hok hfl hreq
    unfold MilestoneService.acceptRequestDeletion
    rw [hctx db mid uid m c hok hfl]
    rw [hreq]
  · intro db mid uid m c t hok hfl hreq
    have heq : MilestoneService.acceptRequestDeletion db mid uid
        = ⟨{ db with milestones :=
            (db.milestones.filter (fun x => ! decide (x.id = mid))) }, none⟩ := by
      unfold MilestoneService.acceptRequestDeletion
      rw [hctx db mid uid m c hok hfl]
      rw [hreq]
    refine ⟨heq, ?_⟩
    rw [heq]
    exact find?_filter_not_none db.milestones (fun x => decide (x.id = mid))
  · intro op db hop i hi
    cases op with
    | create data uid now newId =>
      simp only [applyMilestoneOp]
      cases hg : MilestoneService.getAndValidateContract db data.contractId uid with
      | error e => simp only [MilestoneService.createMilestone, hg]; exact hi
      | ok c =>
        simp only [MilestoneService.createMilestone, hg]
        cases hv : validateClientOnly c uid with
        | some e => simp only [hv]; exact hi
        | none =>
          simp only [hv]
          cases hd : validateMilestoneData data now with
          | some e => simp only [hd]; exact hi
          | none =>
            simp only [hd, List.map_append]
            exact List.mem_append_left _ hi
    | update mid uid data now =>
      simp only [applyMilestoneOp, MilestoneService.updateMilestone]
      refine ids_preserved_wmc db mid uid PartyRole.CLIENT _ ?_ i hi
      intro m c j hj
      cases hv : validatePartialMilestoneData data now with
      | some e => simp only [hv]; exact hj
      | none =>
        simp only [hv]
        by_cases hs : m.status ≠ MilestoneStatus.PENDING
        · rw [if_pos hs]; exact hj
        · rw [if_neg hs]
          refine (mem_ids_updateWhere _ _ _ ?_ j).mpr hj
          intro x
          rfl
    | approveByFreelancer mid uid now bypassAdmin =>
      simp only [applyMilestoneOp, MilestoneService.markMilestoneAsApprovedByFreelancer]
      refine ids_preserved_wmc db mid uid PartyRole.FREELANCER _ ?_ i hi
      intro m c j hj
      cases hv : MilestoneService.validateStatusTransition bypassAdmin m.status
          MilestoneStatus.APPROVED with
      | some e => simp only [hv]; exact hj
      | none =>
        simp only [hv]
        refine (mem_ids_updateWhere _ _ _ ?_ j).mpr hj
        intro x
        rfl
    | reject mid uid bypassAdmin =>
      simp only [applyMilestoneOp, MilestoneService.rejectMilestone]
      refine ids_preserved_wmc db mid uid PartyRole.FREELANCER _ ?_ i hi
      intro m c j hj
      cases hv : MilestoneService.validateStatusTransition bypassAdmin m.status
          MilestoneStatus.REJECTED with
      | some e => simp only [hv]; exact hj
      | none =>
        simp only [hv]
        refine (mem_ids_updateWhere _ _ _ ?_ j).mpr hj
        intro x
        rfl
    | submit mid uid now bypassAdmin =>
      simp only [applyMilestoneOp, MilestoneService.submitMilestone]
      refine ids_preserved_wmc db mid uid PartyRole.FREELANCER _ ?_ i hi
      intro m c j hj
      cases hv : MilestoneService.validateStatusTransition bypassAdmin m.status
          MilestoneStatus.SUBMITTED with
      | some e => simp only [hv]; exact hj
      | none =>
        simp only [hv]
        refine (mem_ids_updateWhere _ _ _ ?_ j).mpr hj
        intro x
        rfl
    | dispute mid uid now bypassAdmin =>
      simp only [applyMilestoneOp, MilestoneService.disputeMilestone]
      refine ids_preserved_wmc db mid uid PartyRole.CLIENT _ ?_ i hi
      intro m c j hj
      cases hv : MilestoneService.validateStatusTransition bypassAdmin m.status
          MilestoneStatus.DISPUTED with
      | some e => simp only [hv]; exact hj
      | none =>
        simp only [hv]
        refine (mem_ids_updateWhere _ _ _ ?_ j).mpr hj
        intro x
        rfl
    | approveByClient mid uid now bypassAdmin =>
      simp only [applyMilestoneOp, MilestoneService.approveWorkByClient]
      refine ids_preserved_wmc db mid uid PartyRole.CLIENT _ ?_ i hi
      intro m c j hj
      cases hv : MilestoneService.validateStatusTransition bypassAdmin m.status
          MilestoneStatus.COMPLETED with
      | some e => simp only [hv]; exact hj
      | none =>
        simp only [hv]
        refine (mem_ids_updateWhere _ _ _ ?_ j).mpr hj
        intro x
        rfl
    | requestDeletion mid uid now =>
      simp only [applyMilestoneOp, MilestoneService.requestDeletion]
      refine ids_preserved_wmc db mid uid PartyRole.CLIENT _ ?_ i hi
      intro m c j hj
      refine (mem_ids_updateWhere _ _ _ ?_ j).mpr hj
      intro x
      rfl
    | acceptRequestDeletion mid uid =>
      simp [MilestoneOp.isAcceptDeletion] at hop

/-- Witness for C9 on the sample store: milestone m2 has no deletion request,
so the freelancer call fails with NO_DELETION_REQUEST; milestone m1 has one,
so the same call deletes it. -/
theorem claim_C9_witness :
    MilestoneService.acceptRequestDeletion sampleDb "m2" "uf"
      = ⟨sampleDb, some (Err.domain DomainCode.NO_DELETION_REQUEST)⟩ ∧
    (MilestoneService.acceptRequestDeletion sampleDb "m1" "uf").db.milestones.find?
      (fun x => decide (x.id = "m1")) = none := by
  constructor
  · exact claim_C9_deletion_handshake.1 sampleDb "m2" "uf"
      ⟨"m2", "ct", "t2", none, 100, 50, 2, MilestoneStatus.PENDING, none, none, none, none⟩
      ⟨"ct", "uc", "uf", "j", ContractStatus.ACTIVE, 0, none, none⟩
      (by rfl) (by rfl) (by rfl)
  · exact (claim_C9_deletion_handshake.2.1 sampleDb "m1" "uf"
      ⟨"m1", "ct", "t1", none, 100, 50, 1, MilestoneStatus.PENDING, none, none, none, some 5⟩
      ⟨"ct", "uc", "uf", "j", ContractStatus.ACTIVE, 0, none, none⟩ 5
      (by rfl) (by rfl) (by rfl)).2

/-
  C7.  Milestone sequence numbers: count-plus-one assignment reuses sequences
  after a deletion, so the claim fails; without deletions it holds.
-/

lemma milestoneSeqs_updateWhere (l : List Milestone) (p : Milestone → Bool)
    (f : Milestone → Milestone) (hc : ∀ x, (f x).contractId = x.contractId)
    (hs : ∀ x, (f x).sequence = x.sequence) (cid : String) :
    ((updateWhere l p f).filter (fun m => decide (m.contractId = cid))).map
        (fun m => m.sequence)
      = (l.filter (fun m => decide (m.contractId = cid))).map (fun m => m.sequence) := by
  induction l with
  | nil => rfl
  | cons a t ih =>
    rw [updateWhere_cons]
    by_cases hp : p a = true
    · rw [if_pos hp]
      by_cases hcid : a.contractId = cid
      · simp [List.filter_cons, hc, hs, hcid, ih]
      · simp [List.filter_cons, hc, hcid, ih]
    · rw [if_neg hp]
      by_cases hcid : a.contractId = cid
      · simp [List.filter_cons, hcid, ih]
      · simp [List.filter_cons, hcid, ih]

lemma seqRange_length (n : Nat) : (seqRange n).length = n := by
  unfold seqRange
  rw [List.length_map, List.length_range]

lemma seqContiguous_of_seqs_eq (db db2 : Db) (cid : String)
    (h : milestoneSeqs db2 cid = milestoneSeqs db cid) :
    seqContiguous db cid → seqContiguous db2 cid := by
  unfold seqContiguous
  intro hcont
  rw [h, hcont, seqRange_length]

lemma milestoneSeqs_update_db (db : Db) (p : Milestone → Bool)
    (f : Milestone → Milestone) (hc : ∀ x, (f x).contractId = x.contractId)
    (hs : ∀ x, (f x).sequence = x.sequence) (cid : String) :
    milestoneSeqs { db with milestones := updateWhere db.milestones p f } cid
      = milestoneSeqs db cid := by
  unfold milestoneSeqs
  exact milestoneSeqs_updateWhere db.milestones p f hc hs cid

lemma seqs_preserved_wmc (db : Db) (mid uid : String) (role : PartyRole)
    (cid : String) (k : Milestone → Contract → OpOutcome)
    (hk : ∀ m c, milestoneSeqs (k m c).db cid = milestoneSeqs db cid) :
    milestoneSeqs (MilestoneService.withMilestoneContext db mid uid role k).db cid
      = milestoneSeqs db cid := by
  rcases withMilestoneContext_cases db mid uid role k with ⟨e, h⟩ | ⟨m, c, h⟩
  · rw [h]
  · rw [h]; exact hk m c

lemma createMilestone_error_unchanged (db : Db) (data : MilestoneDTO)
    (uid : String) (now : Nat) (newId : String) (e : Err)
    (h : (MilestoneService.createMilestone db data uid now newId).error = some e) :
    (MilestoneService.createMilestone db data uid now newId).db = db := by
  unfold MilestoneService.createMilestone at h ⊢
  cases hg : MilestoneService.getAndValidateContract db data.contractId uid with
  | error e2 => simp [hg]
  | ok c =>
    cases hv : validateClientOnly c uid with
    | some e2 => simp [hg, hv]
    | none =>
      cases hd : validateMilestoneData data now with
      | some e2 => simp [hg, hv, hd]
      | none => simp [hg, hv, hd] at h

lemma createMilestone_success_milestones (db : Db) (data : MilestoneDTO)
    (uid : String) (now : Nat) (newId : String)
    (h : (MilestoneService.createMilestone db data uid now newId).error = none) :
    (MilestoneService.createMilestone db data uid now newId).db.milestones
      = db.milestones ++
        [({ id := newId, contractId := data.contractId, title := data.title,
            description := data.description, amount := data.amount,
            dueDate := data.dueDate,
            sequence := ((db.milestones.filter
              (fun m => decide (m.contractId = data.contractId))).length : Int) + 1,
            status := MilestoneStatus.PENDING, approvedAt := none,
            submittedAt := none, disputedAt := none,
            deletionRequestedAt := none } : Milestone)] := by
  unfold MilestoneService.createMilestone at h ⊢
  cases hg : MilestoneService.getAndValidateContract db data.contractId uid with
  | error e2 => simp [hg] at h
  | ok c =>
    cases hv : validateClientOnly c uid with
    | some e2 => simp [hg, hv] at h
    | none =>
      cases hd : validateMilestoneData data now with
      | some e2 => simp [hg, hv, hd] at h
      | none => simp [hg, hv, hd]

lemma seqRange_succ (n : Nat) : seqRange (n + 1) = seqRange n ++ [Int.ofNat n + 1] := by
  unfold seqRange
  rw [List.range_succ, List.map_append]
  rfl

lemma seqRange_nodup (n : Nat) : (seqRange n).Nodup := by
  unfold seqRange
  refine List.Nodup.map ?_ (List.nodup_range n)
  intro a b hab
  simp only [Int.ofNat_eq_coe] at hab
  omega

lemma milestoneSeqs_create_success (db : Db) (data : MilestoneDTO) (uid : String)
    (now : Nat) (newId : String) (cid : String)
    (h : (MilestoneService.createMilestone db data uid now newId).error = none) :
    milestoneSeqs (MilestoneService.createMilestone db data uid now newId).db cid
      = if data.contractId = cid
        then milestoneSeqs db cid ++ [Int.ofNat (milestoneSeqs db cid).length + 1]
        else milestoneSeqs db cid := by
  have hm := createMilestone_success_milestones db data uid now newId h
  unfold milestoneSeqs
  rw [hm, List.filter_append, List.map_append]
  by_cases hcid : data.contractId = cid
  · subst hcid
    rw [if_pos rfl]
    congr 1
    simp [List.filter_cons, List.length_map, Int.ofNat_eq_coe]
  · rw [if_neg hcid]
    simp [List.filter_cons, hcid]

lemma seqContiguous_step (op : MilestoneOp) (db : Db) (cid : String)
    (hop : op.isAcceptDeletion = false) (h : seqContiguous db cid) :
    seqContiguous (applyMilestoneOp op db) cid := by
  cases op with
  | create data uid now newId =>
    simp only [applyMilestoneOp]
    cases herr : (MilestoneService.createMilestone db data uid now newId).error with
    | some e =>
      rw [createMilestone_error_unchanged db data uid now newId e herr]
      exact h
    | none =>
      have hseqs := milestoneSeqs_create_success db data uid now newId cid herr
      unfold seqContiguous at h ⊢
      rw [hseqs]
      by_cases hcid : data.contractId = cid
      · rw [if_pos hcid]
        simp only [List.length_append, List.length_cons, List.length_nil]
        rw [seqRange_succ]
        conv_lhs => rw [h]
        rw [seqRange_length]
      · rw [if_neg hcid]
        exact h
  | update mid uid data now =>
    refine seqContiguous_of_seqs_eq db _ cid ?_ h
    simp only [applyMilestoneOp, MilestoneService.updateMilestone]
    refine seqs_preserved_wmc db mid uid PartyRole.CLIENT cid _ ?_
    intro m c
    cases hv : validatePartialMilestoneData data now with
    | some e => simp only [hv]
    | none =>
      simp only [hv]
      by_cases hs : m.status ≠ MilestoneStatus.PENDING
      · rw [if_pos hs]
      · rw [if_neg hs]
        refine milestoneSeqs_update_db db _ _ ?_ ?_ cid <;> exact fun x => rfl
  | approveByFreelancer mid uid now bypassAdmin =>
    refine seqContiguous_of_seqs_eq db _ cid ?_ h
    simp only [applyMilestoneOp, MilestoneService.markMilestoneAsApprovedByFreelancer]
    refine seqs_preserved_wmc db mid uid PartyRole.FREELANCER cid _ ?_
    intro m c
    cases hv : MilestoneService.validateStatusTransition bypassAdmin m.status
        MilestoneStatus.APPROVED with
    | some e => simp only [hv]
    | none =>
      simp only [hv]
      refine milestoneSeqs_update_db db _ _ ?_ ?_ cid <;> exact fun x => rfl
  | reject mid uid bypassAdmin =>
    refine seqContiguous_of_seqs_eq db _ cid ?_ h
    simp only [applyMilestoneOp, MilestoneService.rejectMilestone]
    refine seqs_preserved_wmc db mid uid PartyRole.FREELANCER cid _ ?_
    intro m c
    cases hv : MilestoneService.validateStatusTransition bypassAdmin m.status
        MilestoneStatus.REJECTED with
    | some e => simp only [hv]
    | none =>
      simp only [hv]
      refine milestoneSeqs_update_db db _ _ ?_ ?_ cid <;> exact fun x => rfl
  | submit mid uid now bypassAdmin =>
    refine seqContiguous_of_seqs_eq db _ cid ?_ h
    simp only [applyMilestoneOp, MilestoneService.submitMilestone]
    refine seqs_preserved_wmc db mid uid PartyRole.FREELANCER cid _ ?_
    intro m c
    cases hv : MilestoneService.validateStatusTransition bypassAdmin m.status
        MilestoneStatus.SUBMITTED with
    | some e => simp only [hv]
    | none =>
      simp only [hv]
      refine milestoneSeqs_update_db db _ _ ?_ ?_ cid <;> exact fun x => rfl
  | dispute mid uid now bypassAdmin =>
    refine seqContiguous_of_seqs_eq db _ cid ?_ h
    simp only [applyMilestoneOp, MilestoneService.disputeMilestone]
    refine seqs_preserved_wmc db mid uid PartyRole.CLIENT cid _ ?_
    intro m c
    cases hv : MilestoneService.validateStatusTransition bypassAdmin m.status
        MilestoneStatus.DISPUTED with
    | some e => simp only [hv]
    | none =>
      simp only [hv]
      refine milestoneSeqs_update_db db _ _ ?_ ?_ cid <;> exact fun x => rfl
  | approveByClient mid uid now bypassAdmin =>
    refine seqContiguous_of_seqs_eq db _ cid ?_ h
    simp only [applyMilestoneOp, MilestoneService.approveWorkByClient]
    refine seqs_preserved_wmc db mid uid PartyRole.CLIENT cid _ ?_
    intro m c
    cases hv : MilestoneService.validateStatusTransition bypassAdmin m.status
        MilestoneStatus.COMPLETED with
    | some e => simp only [hv]
    | none =>
      simp only [hv]
      refine milestoneSeqs_update_db db _ _ ?_ ?_ cid <;> exact fun x => rfl
  | requestDeletion mid uid now =>
    refine seqContiguous_of_seqs_eq db _ cid ?_ h
    simp only [applyMilestoneOp, MilestoneService.requestDeletion]
    refine seqs_preserved_wmc db mid uid PartyRole.CLIENT cid _ ?_
    intro m c
    refine milestoneSeqs_update_db db _ _ ?_ ?_ cid <;> exact fun x => rfl
  | acceptRequestDeletion mid uid =>
    simp [MilestoneOp.isAcceptDeletion] at hop

/-- Counterexample to claim C7: on the sample store, deleting milestone m1
(sequence 1) through the handshake and then creating a new milestone m3 gives
m3 the sequence count + 1 = 2, which the still-existing milestone m2 already
carries: the sequence is reused and no longer unique for contract ct. -/
theorem claim_C7_counterexample :
    (applyMilestoneOps deleteThenCreateOps sampleDb).milestones.map
      (fun m => (m.id, m.sequence)) = [("m2", 2), ("m3", 2)] ∧
    ¬ (milestoneSeqs (applyMilestoneOps deleteThenCreateOps sampleDb) "ct").Nodup := by
  constructor
  · rfl
  · decide

/-- Amended claim C7: createMilestone assigns sequence count + 1, counted over
the milestones of the contract at creation time; as long as no milestone has
been deleted through the deletion handshake, the sequences of a contract are
exactly 1..count and hence pairwise distinct; after a deletion a later
creation can reuse a live sequence number. -/
theorem claim_C7_amended_sequences (ops : List MilestoneOp) (db : Db) (cid : String)
    (hops : ∀ op ∈ ops, op.isAcceptDeletion = false)
    (h : seqContiguous db cid) :
    seqContiguous (applyMilestoneOps ops db) cid ∧
    (milestoneSeqs (applyMilestoneOps ops db) cid).Nodup := by
  induction ops generalizing db with
  | nil =>
    simp only [applyMilestoneOps, List.foldl_nil]
    refine ⟨h, ?_⟩
    unfold seqContiguous at h
    rw [h]
    exact seqRange_nodup _
  | cons op rest ih =>
    have hstep := seqContiguous_step op db cid (hops op (List.mem_cons_self op rest)) h
    exact ih (applyMilestoneOp op db) (fun o ho => hops o (List.mem_cons_of_mem op ho)) hstep

/-- Witness for the amended C7: starting from the sample store, creating two
further milestones without any deletion keeps the sequences of contract ct
contiguous and pairwise distinct. -/
theorem claim_C7_amended_witness :
    (∀ op ∈ [MilestoneOp.create ⟨"ct", "t3", none, 100, 99⟩ "uc" 50 "m3",
             MilestoneOp.create ⟨"ct", "t4", none, 100, 99⟩ "uc" 50 "m4"],
       op.isAcceptDeletion = false) ∧
    seqContiguous sampleDb "ct" ∧
    (milestoneSeqs (applyMilestoneOps
      [MilestoneOp.create ⟨"ct", "t3", none, 100, 99⟩ "uc" 50 "m3",
       MilestoneOp.create ⟨"ct", "t4", none, 100, 99⟩ "uc" 50 "m4"] sampleDb) "ct").Nodup :=
  ⟨by decide, by rfl,
   (claim_C7_amended_sequences _ sampleDb "ct" (by decide) (by rfl)).2⟩

/-
  C3.  A failing financial operation leaves the visible store untouched.
-/

lemma prismaTransaction_of_body_none (body : Db → Option Err × Db) (db db2 : Db)
    (h : body db = (none, db2)) : prismaTransaction body db = ⟨db2, none⟩ := by
  unfold prismaTransaction
  rw [h]

lemma prismaTransaction_of_body_some (body : Db → Option Err × Db) (db db2 : Db)
    (e : Err) (h : body db = (some e, db2)) :
    prismaTransaction body db = ⟨db, some e⟩ := by
  unfold prismaTransaction
  rw [h]

lemma prismaTransaction_cases (body : Db → Option Err × Db) (db : Db) :
    (prismaTransaction body db).error = none ∨ (prismaTransaction body db).db = db := by
  unfold prismaTransaction
  cases body db with
  | mk oe db2 =>
    cases oe with
    | none => exact Or.inl rfl
    | some e => exact Or.inr rfl

/-- Claim C3: whenever one of the five core financial operations returns an
error, the visible store equals the store before the call: all wallet
balances, the escrow heldAmount and both transaction logs are untouched.  The
pre-transaction phases only read, and every write happens inside the prisma
transaction, whose rollback discards them on error. -/
theorem claim_C3_atomic_rollback :
    (∀ uid cid amount db e,
      (EscrowService.depositFunds uid cid amount db).error = some e →
      (EscrowService.depositFunds uid cid amount db).db = db) ∧
    (∀ uid cid amount db e,
      (EscrowService.releaseFunds uid cid amount db).error = some e →
      (EscrowService.releaseFunds uid cid amount db).db = db) ∧
    (∀ cid amount isSystemRefund db e,
      (EscrowService.refundFunds cid amount isSystemRefund db).error = some e →
      (EscrowService.refundFunds cid amount isSystemRefund db).db = db) ∧
    (∀ uid amount db e,
      (WalletService.movePendingToAvailable uid amount db).error = some e →
      (WalletService.movePendingToAvailable uid amount db).db = db) ∧
    (∀ uid amount wid db e,
      (WalletService.processPayoutDeduction uid amount wid db).error = some e →
      (WalletService.processPayoutDeduction uid amount wid db).db = db) := by
  refine ⟨?_, ?_, ?_, ?_, ?_⟩
  · intro uid cid amount db e
    unfold EscrowService.depositFunds
    split
    · intro _; rfl
    · split
      · intro _; rfl
      · split
        · intro _; rfl
        · intro h
          rcases prismaTransaction_cases _ db with hc | hc
          · rw [h] at hc; cases hc
          · exact hc
  · intro uid cid amount db e
    unfold EscrowService.releaseFunds
    split
    · intro _; rfl
    · split
      · intro _; rfl
      · split
        · intro _; rfl
        · intro h
          rcases prismaTransaction_cases _ db with hc | hc
          · rw [h] at hc; cases hc
          · exact hc
  · intro cid amount isSystemRefund db e
    unfold EscrowService.refundFunds
    split
    · intro _; rfl
    · split
      · intro _; rfl
      · intro h
        rcases prismaTransaction_cases _ db with hc | hc
        · rw [h] at hc; cases hc
        · exact hc
  · intro uid amount db e
    unfold WalletService.movePendingToAvailable
    split
    · intro h; simp at h
    · intro h
      rcases prismaTransaction_cases _ db with hc | hc
      · rw [h] at hc; cases hc
      · exact hc
  · intro uid amount wid db e
    unfold WalletService.processPayoutDeduction
    split
    · intro h; simp at h
    · intro h
      rcases prismaTransaction_cases _ db with hc | hc
      · rw [h] at hc; cases hc
      · exact hc

/-- Witness for C3 and scenario C: the client holds 5000 available; a deposit
of 20000 fails with the insufficient-balance error and the store, including
both transaction logs, is exactly the sample store. -/
theorem claim_C3_witness :
    (EscrowService.depositFunds "uc" "ct" 20000 sampleDb).error
      = some Err.insufficientFunds ∧
    (EscrowService.depositFunds "uc" "ct" 20000 sampleDb).db = sampleDb :=
  ⟨by rfl, claim_C3_atomic_rollback.1 "uc" "ct" 20000 sampleDb
    Err.insufficientFunds (by rfl)⟩

/-
  C4.  The deposit operation.
-/

lemma depositFunds_eq_tx (db : Db) (uid cid : String) (amount : Int)
    (c : Contract) (esc : EscrowAccount) (ha : 0 < amount)
    (hgc : EscrowService.getContractWithEscrow db cid = Except.ok (c, esc))
    (hcl : c.clientId = uid) :
    EscrowService.depositFunds uid cid amount db
      = prismaTransaction (EscrowService.depositFundsBody uid cid amount esc) db := by
  unfold EscrowService.depositFunds
  rw [if_neg (by omega), hgc]
  simp [hcl]

lemma depositFundsBody_no_wallet (db : Db) (uid cid : String) (amount : Int)
    (esc : EscrowAccount)
    (hw : db.wallets.find? (fun x => decide (x.userId = uid)) = none) :
    EscrowService.depositFundsBody uid cid amount esc db
      = (some Err.insufficientFunds, db) := by
  unfold EscrowService.depositFundsBody
  rw [hw]

lemma depositFundsBody_low_balance (db : Db) (uid cid : String) (amount : Int)
    (esc : EscrowAccount) (w : Wallet)
    (hw : db.wallets.find? (fun x => decide (x.userId = uid)) = some w)
    (hlt : w.availableBalance < amount) :
    EscrowService.depositFundsBody uid cid amount esc db
      = (some Err.insufficientFunds, db) := by
  unfold EscrowService.depositFundsBody
  rw [hw]
  simp [hlt]

lemma depositFundsBody_success (db : Db) (uid cid : String) (amount : Int)
    (esc : EscrowAccount) (w : Wallet)
    (hw : db.wallets.find? (fun x => decide (x.userId = uid)) = some w)
    (hge : amount ≤ w.availableBalance) :
    EscrowService.depositFundsBody uid cid amount esc db
      = (none,
         { db with
           wallets := (updateWhere db.wallets (fun x => decide (x.userId = uid))
             (fun x => { x with availableBalance := x.availableBalance - amount })),
           escrowAccounts := (updateWhere db.escrowAccounts
             (fun e => decide (e.id = esc.id))
             (fun e => { e with heldAmount := e.heldAmount + amount })),
           escrowTxs := (db.escrowTxs ++
             [({ escrowAccountId := esc.id, amount := amount,
                 type := EscrowTransactionType.DEPOSIT,
                 sourceWalletId := some w.id, destinationWalletId := none,
                 description := "Deposit for contract " ++ cid } : EscrowTransaction)]),
           walletTxs := (db.walletTxs ++
             [({ walletId := w.id, amount := amount,
                 type := TransactionType.HOLD, relatedId := some cid,
                 metadata := "Escrow Deposit for Contract " ++ cid } : WalletTransaction)]) }) := by
  have h1 : ¬ (w.availableBalance < amount) := by omega
  unfold EscrowService.depositFundsBody
  rw [hw]
  simp only [h1, if_false]

/-- Claim C4: for a positive deposit on a contract with an initialized escrow
account: a non-client caller fails Unauthorized; a missing client wallet or
one with availableBalance below the amount fails InsufficientFunds, in both
cases with the store unchanged; otherwise the deposit succeeds, decrements the
client availableBalance by the amount, increments heldAmount by the amount,
and appends exactly one DEPOSIT escrow transaction and one HOLD wallet
transaction. -/
theorem claim_C4_deposit (db : Db) (uid cid : String) (amount : Int)
    (c : Contract) (esc : EscrowAccount) (ha : 0 < amount)
    (hgc : EscrowService.getContractWithEscrow db cid = Except.ok (c, esc)) :
    (c.clientId ≠ uid →
      EscrowService.depositFunds uid cid amount db
        = ⟨db, some Err.unauthorizedClient⟩) ∧
    (c.clientId = uid →
      db.wallets.find? (fun x => decide (x.userId = uid)) = none →
      EscrowService.depositFunds uid cid amount db
        = ⟨db, some Err.insufficientFunds⟩) ∧
    (∀ w, c.clientId = uid →
      db.wallets.find? (fun x => decide (x.userId = uid)) = some w →
      w.availableBalance < amount →
      EscrowService.depositFunds uid cid amount db
        = ⟨db, some Err.insufficientFunds⟩) ∧
    (∀ w e0, c.clientId = uid →
      db.wallets.find? (fun x => decide (x.userId = uid)) = some w →
      amount ≤ w.availableBalance →
      db.escrowAccounts.find? (fun x => decide (x.id = esc.id)) = some e0 →
      (EscrowService.depositFunds uid cid amount db).error = none ∧
      ((EscrowService.depositFunds uid cid amount db).db.wallets.find?
          (fun x => decide (x.userId = uid))
        = some { w with availableBalance := w.availableBalance - amount }) ∧
      ((EscrowService.depositFunds uid cid amount db).db.escrowAccounts.find?
          (fun x => decide (x.id = esc.id))
        = some { e0 with heldAmount := e0.heldAmount + amount }) ∧
      ((EscrowService.depositFunds uid cid amount db).db.escrowTxs
        = db.escrowTxs ++
          [({ escrowAccountId := esc.id, amount := amount,
              type := EscrowTransactionType.DEPOSIT, sourceWalletId := some w.id,
              destinationWalletId := none,
              description := "Deposit for contract " ++ cid } : EscrowTransaction)]) ∧
      ((EscrowService.depositFunds uid cid amount db).db.walletTxs
        = db.walletTxs ++
          [({ walletId := w.id, amount := amount, type := TransactionType.HOLD,
              relatedId := some cid,
              metadata := "Escrow Deposit for Contract " ++ cid } : WalletTransaction)])) := by
  refine ⟨?_, ?_, ?_, ?_⟩
  · intro hcl
    unfold EscrowService.depositFunds
    rw [if_neg (by omega), hgc]
    simp [hcl]
  · intro hcl hw
    rw [depositFunds_eq_tx db uid cid amount c esc ha hgc hcl,
        prismaTransaction_of_body_some _ db db Err.insufficientFunds
          (depositFundsBody_no_wallet db uid cid amount esc hw)]
  · intro w hcl hw hlt
    rw [depositFunds_eq_tx db uid cid amount c esc ha hgc hcl,
        prismaTransaction_of_body_some _ db db Err.insufficientFunds
          (depositFundsBody_low_balance db uid cid amount esc w hw hlt)]
  · intro w e0 hcl hw hge hesc
    rw [depositFunds_eq_tx db uid cid amount c esc ha hgc hcl,
        prismaTransaction_of_body_none _ db _
          (depositFundsBody_success db uid cid amount esc w hw hge)]
    refine ⟨rfl, ?_, ?_, rfl, rfl⟩
    · refine find?_updateWhere_self db.wallets _ _ ?_ w hw
      exact fun x => rfl
    · refine find?_updateWhere_self db.escrowAccounts _ _ ?_ e0 hesc
      exact fun x => rfl

/-- Witness for C4 and scenario A: the client wallet holds 15000; depositing
10000 for contract ct succeeds, leaves 5000 available, holds 10000 in escrow,
and appends the two audit rows. -/
theorem claim_C4_witness :
    (EscrowService.depositFunds "uc" "ct" 10000 sampleDb).error = none ∧
    ((EscrowService.depositFunds "uc" "ct" 10000 sampleDb).db.wallets.find?
        (fun x => decide (x.userId = "uc")) = some ⟨"wc", "uc", 5000, 0⟩) ∧
    ((EscrowService.depositFunds "uc" "ct" 10000 sampleDb).db.escrowAccounts.find?
        (fun x => decide (x.id = "ea")) = some ⟨"ea", "ct", "uc", "uf", 10000, 0⟩) ∧
    ((EscrowService.depositFunds "uc" "ct" 10000 sampleDb).db.escrowTxs
      = [⟨"ea", 10000, EscrowTransactionType.DEPOSIT, some "wc", none,
          "Deposit for contract ct"⟩]) ∧
    ((EscrowService.depositFunds "uc" "ct" 10000 sampleDb).db.walletTxs
      = [⟨"wc", 10000, TransactionType.HOLD, some "ct",
          "Escrow Deposit for Contract ct"⟩]) := by
  have h := (claim_C4_deposit sampleDb "uc" "ct" 10000
    ⟨"ct", "uc", "uf", "j", ContractStatus.ACTIVE, 0, none, none⟩
    ⟨"ea", "ct", "uc", "uf", 0, 0⟩ (by decide) (by rfl)).2.2.2
    ⟨"wc", "uc", 15000, 0⟩ ⟨"ea", "ct", "uc", "uf", 0, 0⟩
    (by decide) (by rfl) (by decide) (by rfl)
  exact ⟨h.1, h.2.1, h.2.2.1, h.2.2.2.1, h.2.2.2.2⟩

/-
  C5.  The release operation.
-/

lemma releaseFunds_eq_tx (db : Db) (uid cid : String) (amount : Int)
    (c : Contract) (esc : EscrowAccount) (ha : 0 < amount)
    (hgc : EscrowService.getContractWithEscrow db cid = Except.ok (c, esc))
    (hcl : c.clientId = uid) :
    EscrowService.releaseFunds uid cid amount db
      = prismaTransaction (EscrowService.releaseFundsBody c esc cid amount) db := by
  unfold EscrowService.releaseFunds
  rw [if_neg (by omega), hgc]
  simp [hcl]

lemma releaseFundsBody_low_held (db : Db) (cid : String) (amount : Int)
    (c : Contract) (esc : EscrowAccount) (cur : EscrowAccount)
    (hre : db.escrowAccounts.find? (fun e => decide (e.id = esc.id)) = some cur)
    (hlt : cur.heldAmount < amount) :
    EscrowService.releaseFundsBody c esc cid amount db
      = (some Err.insufficientFunds, db) := by
  unfold EscrowService.releaseFundsBody
  rw [hre]
  simp [hlt]

lemma releaseFundsBody_no_valid_wallet (db : Db) (cid : String) (amount : Int)
    (c : Contract) (esc : EscrowAccount) (cur : EscrowAccount)
    (ha : 0 < amount)
    (hre : db.escrowAccounts.find? (fun e => decide (e.id = esc.id)) = some cur)
    (hge : amount ≤ cur.heldAmount)
    (hcnt : (db.wallets.filter (fun w => decide (w.userId = c.freelancerId) &&
      isActiveFreelancer db.users w.userId)).length = 0) :
    EscrowService.releaseFundsBody c esc cid amount db
      = (some Err.freelancerWalletInvalid,
         { db with escrowAccounts := (updateWhere db.escrowAccounts
             (fun e => decide (e.id = esc.id))
             (fun e => { e with heldAmount := e.heldAmount - amount })) }) := by
  have h0 : ¬ (amount ≤ 0) := by omega
  have hnl : ¬ (cur.heldAmount < amount) := by omega
  unfold EscrowService.releaseFundsBody WalletService.updatePendingBalance
  rw [hre]
  simp [hnl, h0, hcnt]

lemma releaseFundsBody_success (db : Db) (cid : String) (amount : Int)
    (c : Contract) (esc : EscrowAccount) (cur : EscrowAccount) (fw : Wallet)
    (ha : 0 < amount)
    (hre : db.escrowAccounts.find? (fun e => decide (e.id = esc.id)) = some cur)
    (hge : amount ≤ cur.heldAmount)
    (hact : isActiveFreelancer db.users c.freelancerId = true)
    (hfw : db.wallets.find? (fun w => decide (w.userId = c.freelancerId)) = some fw) :
    EscrowService.releaseFundsBody c esc cid amount db
      = (none,
         { db with
           wallets := (updateWhere db.wallets
             (fun w => decide (w.userId = c.freelancerId) &&
               isActiveFreelancer db.users w.userId)
             (fun w => { w with pendingBalance := w.pendingBalance + amount })),
           walletTxs := (db.walletTxs ++
             [({ walletId := fw.id, amount := amount,
                 type := TransactionType.RELEASE, relatedId := none,
                 metadata := "Milestone Completion (Pending)" } : WalletTransaction)]),
           escrowAccounts := (updateWhere db.escrowAccounts
             (fun e => decide (e.id = esc.id))
             (fun e => { e with heldAmount := e.heldAmount - amount })),
           escrowTxs := (db.escrowTxs ++
             [({ escrowAccountId := esc.id, amount := amount,
                 type := EscrowTransactionType.RELEASE, sourceWalletId := none,
                 destinationWalletId := some fw.id,
                 description := "Funds released for Contract " ++ cid ++
                   " milestone" } : EscrowTransaction)]) }) := by
  have h0 : ¬ (amount ≤ 0) := by omega
  have hnl : ¬ (cur.heldAmount < amount) := by omega
  have hdfw := List.find?_some hfw
  have hufw : fw.userId = c.freelancerId := of_decide_eq_true hdfw
  have hpred : ∀ w : Wallet,
      (decide (w.userId = c.freelancerId) && isActiveFreelancer db.users w.userId)
        = decide (w.userId = c.freelancerId) := by
    intro w
    by_cases hw : w.userId = c.freelancerId
    · simp [hw, hact]
    · simp [hw]
  have hmemf : fw ∈ db.wallets.filter
      (fun w => decide (w.userId = c.freelancerId) &&
        isActiveFreelancer db.users w.userId) := by
    refine List.mem_filter.mpr ⟨List.mem_of_find?_eq_some hfw, ?_⟩
    rw [hpred fw]
    exact hdfw
  have hcnt : ¬ ((db.wallets.filter
      (fun w => decide (w.userId = c.freelancerId) &&
        isActiveFreelancer db.users w.userId)).length = 0) := by
    intro hz
    exact List.ne_nil_of_mem hmemf (List.length_eq_zero.mp hz)
  have hfind : (updateWhere db.wallets
      (fun w => decide (w.userId = c.freelancerId) &&
        isActiveFreelancer db.users w.userId)
      (fun w => { w with pendingBalance := w.pendingBalance + amount })).find?
        (fun w => decide (w.userId = c.freelancerId))
      = some { fw with pendingBalance := fw.pendingBalance + amount } := by
    rw [updateWhere_congr db.wallets _ (fun w => decide (w.userId = c.freelancerId)) _ hpred]
    refine find?_updateWhere_self db.wallets _ _ ?_ fw hfw
    exact fun x => rfl
  unfold EscrowService.releaseFundsBody WalletService.updatePendingBalance
  rw [hre]
  simp only [hnl, if_false, h0, hcnt, hfind]

/-- Claim C5: for a positive release by the contract client: a heldAmount
below the amount fails InsufficientFunds with the store unchanged; when
heldAmount suffices but no wallet of an ACTIVE FREELANCER user matches the
contract freelancer, creditPending aborts the transaction and the store is
unchanged; otherwise the release decrements heldAmount, credits the freelancer
pendingBalance, and appends one RELEASE wallet transaction and one RELEASE
escrow transaction. -/
theorem claim_C5_release (db : Db) (uid cid : String) (amount : Int)
    (c : Contract) (esc : EscrowAccount) (cur : EscrowAccount)
    (ha : 0 < amount)
    (hgc : EscrowService.getContractWithEscrow db cid = Except.ok (c, esc))
    (hcl : c.clientId = uid)
    (hre : db.escrowAccounts.find? (fun e => decide (e.id = esc.id)) = some cur) :
    (cur.heldAmount < amount →
      EscrowService.releaseFunds uid cid amount db
        = ⟨db, some Err.insufficientFunds⟩) ∧
    (amount ≤ cur.heldAmount →
      (db.wallets.filter (fun w => decide (w.userId = c.freelancerId) &&
        isActiveFreelancer db.users w.userId)).length = 0 →
      EscrowService.releaseFunds uid cid amount db
        = ⟨db, some Err.freelancerWalletInvalid⟩) ∧
    (∀ fw, amount ≤ cur.heldAmount →
      isActiveFreelancer db.users c.freelancerId = true →
      db.wallets.find? (fun w => decide (w.userId = c.freelancerId)) = some fw →
      (EscrowService.releaseFunds uid cid amount db).error = none ∧
      ((EscrowService.releaseFunds uid cid amount db).db.escrowAccounts.find?
          (fun e => decide (e.id = esc.id))
        = some { cur with heldAmount := cur.heldAmount - amount }) ∧
      ((EscrowService.releaseFunds uid cid amount db).db.wallets.find?
          (fun w => decide (w.userId = c.freelancerId))
        = some { fw with pendingBalance := fw.pendingBalance + amount }) ∧
      ((EscrowService.releaseFunds uid cid amount db).db.walletTxs
        = db.walletTxs ++
          [({ walletId := fw.id, amount := amount, type := TransactionType.RELEASE,
              relatedId := none,
              metadata := "Milestone Completion (Pending)" } : WalletTransaction)]) ∧
      ((EscrowService.releaseFunds uid cid amount db).db.escrowTxs
        = db.escrowTxs ++
          [({ escrowAccountId := esc.id, amount := amount,
              type := EscrowTransactionType.RELEASE, sourceWalletId := none,
              destinationWalletId := some fw.id,
              description := "Funds released for Contract " ++ cid ++
                " milestone" } : EscrowTransaction)])) := by
  refine ⟨?_, ?_, ?_⟩
  · intro hlt
    rw [releaseFunds_eq_tx db uid cid amount c esc ha hgc hcl,
        prismaTransaction_of_body_some _ db db Err.insufficientFunds
          (releaseFundsBody_low_held db cid amount c esc cur hre hlt)]
  · intro hge hcnt
    rw [releaseFunds_eq_tx db uid cid amount c esc ha hgc hcl,
        prismaTransaction_of_body_some _ db _ Err.freelancerWalletInvalid
          (releaseFundsBody_no_valid_wallet db cid amount c esc cur ha hre hge hcnt)]
  · intro fw hge hact hfw
    rw [releaseFunds_eq_tx db uid cid amount c esc ha hgc hcl,
        prismaTransaction_of_body_none _ db _
          (releaseFundsBody_success db cid amount c esc cur fw ha hre hge hact hfw)]
    have hpred : ∀ w : Wallet,
        (decide (w.userId = c.freelancerId) && isActiveFreelancer db.users w.userId)
          = decide (w.userId = c.freelancerId) := by
      intro w
      by_cases hw : w.userId = c.freelancerId
      · simp [hw, hact]
      · simp [hw]
    refine ⟨rfl, ?_, ?_, rfl, rfl⟩
    · refine find?_updateWhere_self db.escrowAccounts _ _ ?_ cur hre
      exact fun x => rfl
    · rw [show (updateWhere db.wallets
          (fun w => decide (w.userId = c.freelancerId) &&
            isActiveFreelancer db.users w.userId)
          (fun w => { w with pendingBalance := w.pendingBalance + amount }))
          = (updateWhere db.wallets
              (fun w => decide (w.userId = c.freelancerId))
              (fun w => { w with pendingBalance := w.pendingBalance + amount }))
        from updateWhere_congr db.wallets _ _ _ hpred]
      refine find?_updateWhere_self db.wallets _ _ ?_ fw hfw
      exact fun x => rfl

/-- Witness for C5 and scenario B: after the scenario A deposit the escrow
holds 10000; releasing 4000 to the ACTIVE freelancer succeeds, leaves 6000
held, credits 4000 pending, and appends the RELEASE audit rows. -/
theorem claim_C5_witness :
    ((EscrowService.releaseFunds "uc" "ct" 4000
        (EscrowService.depositFunds "uc" "ct" 10000 sampleDb).db).error = none) ∧
    ((EscrowService.releaseFunds "uc" "ct" 4000
        (EscrowService.depositFunds "uc" "ct" 10000 sampleDb).db).db.escrowAccounts.find?
      (fun e => decide (e.id = "ea")) = some ⟨"ea", "ct", "uc", "uf", 6000, 0⟩) ∧
    ((EscrowService.releaseFunds "uc" "ct" 4000
        (EscrowService.depositFunds "uc" "ct" 10000 sampleDb).db).db.wallets.find?
      (fun w => decide (w.userId = "uf")) = some ⟨"wf", "uf", 0, 4000⟩) := by
  have h := (claim_C5_release (EscrowService.depositFunds "uc" "ct" 10000 sampleDb).db
    "uc" "ct" 4000
    ⟨"ct", "uc", "uf", "j", ContractStatus.ACTIVE, 0, none, none⟩
    ⟨"ea", "ct", "uc", "uf", 10000, 0⟩
    ⟨"ea", "ct", "uc", "uf", 10000, 0⟩
    (by decide) (by rfl) (by decide) (by rfl)).2.2
    ⟨"wf", "uf", 0, 0⟩ (by decide) (by rfl) (by rfl)
  exact ⟨h.1, h.2.1, h.2.2.1⟩

/-
  C6.  Serialized balance checks cannot over-withdraw.
-/

lemma payoutBody_no_wallet (db : Db) (uid wid : String) (amount : Int)
    (hw : db.wallets.find? (fun x => decide (x.userId = uid)) = none) :
    WalletService.processPayoutDeductionBody uid amount wid db
      = (some Err.insufficientFunds, db) := by
  unfold WalletService.processPayoutDeductionBody
  rw [hw]

lemma payoutBody_low_balance (db : Db) (uid wid : String) (amount : Int) (w : Wallet)
    (hw : db.wallets.find? (fun x => decide (x.userId = uid)) = some w)
    (hlt : w.availableBalance < amount) :
    WalletService.processPayoutDeductionBody uid amount wid db
      = (some Err.insufficientFunds, db) := by
  unfold WalletService.processPayoutDeductionBody
  rw [hw]
  simp [hlt]

lemma payoutBody_success (db : Db) (uid wid : String) (amount : Int) (w : Wallet)
    (hw : db.wallets.find? (fun x => decide (x.userId = uid)) = some w)
    (hge : amount ≤ w.availableBalance) :
    WalletService.processPayoutDeductionBody uid amount wid db
      = (none,
         { db with
           wallets := (updateWhere db.wallets (fun x => decide (x.userId = uid))
             (fun x => { x with availableBalance := x.availableBalance - amount })),
           walletTxs := (db.walletTxs ++
             [({ walletId := w.id, amount := amount,
                 type := TransactionType.WITHDRAWAL, relatedId := some wid,
                 metadata := "Payout Deduction" } : WalletTransaction)]) }) := by
  have h1 : ¬ (w.availableBalance < amount) := by omega
  unfold WalletService.processPayoutDeductionBody
  rw [hw]
  simp only [h1, if_false]

lemma payout_success_chars (db : Db) (uid wid : String) (amount : Int)
    (ha : 0 < amount)
    (h : (WalletService.processPayoutDeduction uid amount wid db).error = none) :
    ∃ w, db.wallets.find? (fun x => decide (x.userId = uid)) = some w ∧
      amount ≤ w.availableBalance ∧
      (WalletService.processPayoutDeduction uid amount wid db).db.wallets.find?
        (fun x => decide (x.userId = uid))
        = some { w with availableBalance := w.availableBalance - amount } := by
  have ha2 : ¬ (amount ≤ 0) := by omega
  unfold WalletService.processPayoutDeduction at h ⊢
  rw [if_neg ha2] at h ⊢
  cases hw : db.wallets.find? (fun x => decide (x.userId = uid)) with
  | none =>
    rw [prismaTransaction_of_body_some _ db db _
      (payoutBody_no_wallet db uid wid amount hw)] at h
    simp at h
  | some w =>
    by_cases hlt : w.availableBalance < amount
    · rw [prismaTransaction_of_body_some _ db db _
        (payoutBody_low_balance db uid wid amount w hw hlt)] at h
      simp at h
    · refine ⟨w, rfl, by omega, ?_⟩
      rw [prismaTransaction_of_body_none _ db _
        (payoutBody_success db uid wid amount w hw (by omega))]
      refine find?_updateWhere_self db.wallets _ _ ?_ w hw
      exact fun x => rfl

lemma depositFunds_success_chars (db : Db) (uid cid : String) (amount : Int)
    (h : (EscrowService.depositFunds uid cid amount db).error = none) :
    ∃ w, db.wallets.find? (fun x => decide (x.userId = uid)) = some w ∧
      amount ≤ w.availableBalance ∧
      (EscrowService.depositFunds uid cid amount db).db.wallets.find?
        (fun x => decide (x.userId = uid))
        = some { w with availableBalance := w.availableBalance - amount } := by
  by_cases ha : amount ≤ 0
  · unfold EscrowService.depositFunds at h
    rw [if_pos ha] at h
    simp at h
  · cases hgc : EscrowService.getContractWithEscrow db cid with
    | error e =>
      unfold EscrowService.depositFunds at h
      rw [if_neg ha, hgc] at h
      simp at h
    | ok p =>
      obtain ⟨c, esc⟩ := p
      by_cases hcl : c.clientId = uid
      · have heq := depositFunds_eq_tx db uid cid amount c esc (by omega) hgc hcl
        rw [heq] at h ⊢
        cases hw : db.wallets.find? (fun x => decide (x.userId = uid)) with
        | none =>
          rw [prismaTransaction_of_body_some _ db db _
            (depositFundsBody_no_wallet db uid cid amount esc hw)] at h
          simp at h
        | some w =>
          by_cases hlt : w.availableBalance < amount
          · rw [prismaTransaction_of_body_some _ db db _
              (depositFundsBody_low_balance db uid cid amount esc w hw hlt)] at h
            simp at h
          · refine ⟨w, rfl, by omega, ?_⟩
            rw [prismaTransaction_of_body_none _ db _
              (depositFundsBody_success db uid cid amount esc w hw (by omega))]
            refine find?_updateWhere_self db.wallets _ _ ?_ w hw
            exact fun x => rfl
      · unfold EscrowService.depositFunds at h
        rw [if_neg ha, hgc] at h
        simp [hcl] at h

lemma moveBody_no_wallet (db : Db) (uid : String) (amount : Int)
    (hw : db.wallets.find? (fun x => decide (x.userId = uid)) = none) :
    WalletService.movePendingToAvailableBody uid amount db
      = (some Err.insufficientFunds, db) := by
  unfold WalletService.movePendingToAvailableBody
  rw [hw]

lemma moveBody_low_pending (db : Db) (uid : String) (amount : Int) (w : Wallet)
    (hw : db.wallets.find? (fun x => decide (x.userId = uid)) = some w)
    (hlt : w.pendingBalance < amount) :
    WalletService.movePendingToAvailableBody uid amount db
      = (some Err.insufficientFunds, db) := by
  unfold WalletService.movePendingToAvailableBody
  rw [hw]
  simp [hlt]

lemma moveBody_success (db : Db) (uid : String) (amount : Int) (w : Wallet)
    (hw : db.wallets.find? (fun x => decide (x.userId = uid)) = some w)
    (hge : amount ≤ w.pendingBalance) :
    WalletService.movePendingToAvailableBody uid amount db
      = (none,
         { db with
           wallets := (updateWhere db.wallets (fun x => decide (x.userId = uid))
             (fun x => { x with pendingBalance := x.pendingBalance - amount,
                                availableBalance := x.availableBalance + amount })),
           walletTxs := (db.walletTxs ++
             [({ walletId := w.id, amount := amount,
                 type := TransactionType.ADJUSTMENT, relatedId := none,
                 metadata := "Pending to Available Move" } : WalletTransaction)]) }) := by
  have h1 : ¬ (w.pendingBalance < amount) := by omega
  unfold WalletService.movePendingToAvailableBody
  rw [hw]
  simp only [h1, if_false]

lemma movePending_success_chars (db : Db) (uid : String) (amount : Int)
    (ha : 0 < amount)
    (h : (WalletService.movePendingToAvailable uid amount db).error = none) :
    ∃ w, db.wallets.find? (fun x => decide (x.userId = uid)) = some w ∧
      amount ≤ w.pendingBalance ∧
      (WalletService.movePendingToAvailable uid amount db).db.wallets.find?
        (fun x => decide (x.userId = uid))
        = some { w with pendingBalance := w.pendingBalance - amount,
                        availableBalance := w.availableBalance + amount } := by
  have ha2 : ¬ (amount ≤ 0) := by omega
  unfold WalletService.movePendingToAvailable at h ⊢
  rw [if_neg ha2] at h ⊢
  cases hw : db.wallets.find? (fun x => decide (x.userId = uid)) with
  | none =>
    rw [prismaTransaction_of_body_some _ db db _
      (moveBody_no_wallet db uid amount hw)] at h
    simp at h
  | some w =>
    by_cases hlt : w.pendingBalance < amount
    · rw [prismaTransaction_of_body_some _ db db _
        (moveBody_low_pending db uid amount w hw hlt)] at h
      simp at h
    · refine ⟨w, rfl, by omega, ?_⟩
      rw [prismaTransaction_of_body_none _ db _
        (moveBody_success db uid amount w hw (by omega))]
      refine find?_updateWhere_self db.wallets _ _ ?_ w hw
      exact fun x => rfl

lemma availableDraw_success_chars (uid : String) (op : AvailableDrawOp) (db : Db)
    (ha : 0 < op.amount)
    (h : (applyAvailableDrawOp uid op db).error = none) :
    ∃ w w2, db.wallets.find? (fun x => decide (x.userId = uid)) = some w ∧
      op.amount ≤ w.availableBalance ∧
      (applyAvailableDrawOp uid op db).db.wallets.find?
        (fun x => decide (x.userId = uid)) = some w2 ∧
      w2.availableBalance = w.availableBalance - op.amount := by
  cases op with
  | payout withdrawalId a =>
    simp only [applyAvailableDrawOp, AvailableDrawOp.amount] at ha h ⊢
    obtain ⟨w, hw, hle, hafter⟩ := payout_success_chars db uid withdrawalId a ha h
    exact ⟨w, { w with availableBalance := w.availableBalance - a },
      hw, hle, hafter, rfl⟩
  | escrowDeposit contractId a =>
    simp only [applyAvailableDrawOp, AvailableDrawOp.amount] at ha h ⊢
    obtain ⟨w, hw, hle, hafter⟩ := depositFunds_success_chars db uid contractId a h
    exact ⟨w, { w with availableBalance := w.availableBalance - a },
      hw, hle, hafter, rfl⟩

/-- Claim C6: because the balance check and the deduction sit inside one
transaction holding the wallet row lock, concurrent calls serialize, and two
serialized balance-decrementing calls on the same wallet can only both
succeed when their amounts together fit in the balance drawn from, as it
stood at the start.  The first part covers any pair of the two operations
that deduct availableBalance (payout deduction and escrow deposit, so
payout/payout, payout/deposit, deposit/payout and deposit/deposit); the
second covers two movePendingToAvailable calls, the one operation that
deducts pendingBalance. -/
theorem claim_C6_no_over_withdrawal :
    (∀ (o1 o2 : AvailableDrawOp) (db : Db) (uid : String) (w : Wallet),
      db.wallets.find? (fun x => decide (x.userId = uid)) = some w →
      0 < o1.amount → 0 < o2.amount →
      (applyAvailableDrawOp uid o1 db).error = none →
      (applyAvailableDrawOp uid o2 (applyAvailableDrawOp uid o1 db).db).error = none →
      o1.amount + o2.amount ≤ w.availableBalance) ∧
    (∀ (db : Db) (uid : String) (a1 a2 : Int) (w : Wallet),
      db.wallets.find? (fun x => decide (x.userId = uid)) = some w →
      0 < a1 → 0 < a2 →
      (WalletService.movePendingToAvailable uid a1 db).error = none →
      (WalletService.movePendingToAvailable uid a2
        (WalletService.movePendingToAvailable uid a1 db).db).error = none →
      a1 + a2 ≤ w.pendingBalance) := by
  constructor
  · intro o1 o2 db uid w hw h1 h2 hs1 hs2
    obtain ⟨w1, w1b, hw1, hle1, hafter1, heq1⟩ :=
      availableDraw_success_chars uid o1 db h1 hs1
    obtain ⟨w2, w2b, hw2, hle2, hafter2, heq2⟩ :=
      availableDraw_success_chars uid o2 _ h2 hs2
    rw [hw] at hw1
    cases hw1
    rw [hafter1] at hw2
    cases hw2
    omega
  · intro db uid a1 a2 w hw h1 h2 hs1 hs2
    obtain ⟨w1, hw1, hle1, hafter1⟩ := movePending_success_chars db uid a1 h1 hs1
    obtain ⟨w2, hw2, hle2, _⟩ := movePending_success_chars _ uid a2 h2 hs2
    rw [hw] at hw1
    cases hw1
    rw [hafter1] at hw2
    cases hw2
    simp at hle2
    omega

/-- Witness for C6: from the sample store, a payout deduction of 6000 and
then an escrow deposit of 7000 from the same client wallet both succeed, and
6000 + 7000 fits within the starting availableBalance 15000; from the
pending-funds store, two pending-to-available moves of 1500 and 2000 both
succeed, and 1500 + 2000 fits within the starting pendingBalance 4000. -/
theorem claim_C6_witness :
    (applyAvailableDrawOp "uc" (AvailableDrawOp.payout "w1" 6000) sampleDb).error
      = none ∧
    (applyAvailableDrawOp "uc" (AvailableDrawOp.escrowDeposit "ct" 7000)
      (applyAvailableDrawOp "uc" (AvailableDrawOp.payout "w1" 6000) sampleDb).db).error
      = none ∧
    (6000 + 7000 : Int) ≤ 15000 ∧
    (WalletService.movePendingToAvailable "uf" 1500 samplePendingDb).error = none ∧
    (WalletService.movePendingToAvailable "uf" 2000
      (WalletService.movePendingToAvailable "uf" 1500 samplePendingDb).db).error
      = none ∧
    (1500 + 2000 : Int) ≤ 4000 :=
  ⟨by rfl, by rfl,
   claim_C6_no_over_withdrawal.1 (AvailableDrawOp.payout "w1" 6000)
     (AvailableDrawOp.escrowDeposit "ct" 7000) sampleDb "uc"
     ⟨"wc", "uc", 15000, 0⟩ (by rfl) (by decide) (by decide) (by rfl) (by rfl),
   by rfl, by rfl,
   claim_C6_no_over_withdrawal.2 samplePendingDb "uf" 1500 2000
     ⟨"wf", "uf", 0, 4000⟩ (by rfl) (by decide) (by decide) (by rfl) (by rfl)⟩

/-
  C1.  Ledger reconciliation invariant of the escrow engine.
-/

lemma find?_isSome_of_mem {α : Type} (l : List α) (q : α → Bool) (x : α)
    (hx : x ∈ l) (hqx : q x = true) : ∃ y, l.find? q = some y := by
  induction l with
  | nil => cases hx
  | cons a t ih =>
    by_cases ha : q a = true
    · exact ⟨a, List.find?_cons_of_pos _ ha⟩
    · rcases List.mem_cons.mp hx with rfl | hxt
      · exact absurd hqx ha
      · obtain ⟨y, hy⟩ := ih hxt
        exact ⟨y, by rw [List.find?_cons_of_neg _ ha]; exact hy⟩

lemma escrowLedgerOk_add (db db2 : Db) (aid : String) (amount : Int)
    (t : EscrowTransaction) (hpos : 0 < amount)
    (hA : db2.escrowAccounts = updateWhere db.escrowAccounts
      (fun e => decide (e.id = aid))
      (fun e => { e with heldAmount := e.heldAmount + amount }))
    (hT : db2.escrowTxs = db.escrowTxs ++ [t])
    (ht1 : t.escrowAccountId = aid)
    (ht2 : t.type = EscrowTransactionType.DEPOSIT)
    (ht3 : t.amount = amount)
    (h : escrowLedgerOk db) : escrowLedgerOk db2 := by
  obtain ⟨hnd, hinv⟩ := h
  have hkeys := updateWhere_map_key db.escrowAccounts
    (fun e => decide (e.id = aid))
    (fun e => ({ e with heldAmount := e.heldAmount + amount } : EscrowAccount))
    (fun e => e.id) (fun x _ => rfl)
  constructor
  · rw [hA, hkeys]
    exact hnd
  · intro e2 he2
    rw [hA] at he2
    rw [hT]
    obtain ⟨e, he, hge⟩ := List.mem_map.mp he2
    obtain ⟨heq, hnn⟩ := hinv e he
    by_cases hid : e.id = aid
    · rw [if_pos (decide_eq_true hid)] at hge
      subst hge
      constructor
      · show e.heldAmount + amount
          = e.initialAmount
            + escrowSumTx (db.escrowTxs ++ [t]) e.id EscrowTransactionType.DEPOSIT
            - escrowSumTx (db.escrowTxs ++ [t]) e.id EscrowTransactionType.RELEASE
            - escrowSumTx (db.escrowTxs ++ [t]) e.id EscrowTransactionType.REFUND
        rw [escrowSumTx_append, escrowSumTx_append, escrowSumTx_append, ht3]
        rw [if_pos (⟨ht1.trans hid.symm, ht2⟩ :
              t.escrowAccountId = e.id ∧ t.type = EscrowTransactionType.DEPOSIT)]
        rw [if_neg (show ¬ (t.escrowAccountId = e.id ∧
              t.type = EscrowTransactionType.RELEASE) by simp [ht2])]
        rw [if_neg (show ¬ (t.escrowAccountId = e.id ∧
              t.type = EscrowTransactionType.REFUND) by simp [ht2])]
        omega
      · show 0 ≤ e.heldAmount + amount
        omega
    · rw [if_neg (by simp [hid])] at hge
      subst hge
      have hno : ∀ ty, escrowSumTx (db.escrowTxs ++ [t]) e.id ty
          = escrowSumTx db.escrowTxs e.id ty := by
        intro ty
        rw [escrowSumTx_append,
            if_neg (show ¬ (t.escrowAccountId = e.id ∧ t.type = ty) from
              fun hcon => hid (ht1.symm.trans hcon.1).symm)]
        omega
      rw [hno, hno, hno]
      exact ⟨heq, hnn⟩

lemma escrowLedgerOk_sub (db db2 : Db) (aid : String) (amount : Int)
    (t : EscrowTransaction) (cur : EscrowAccount)
    (hfind : db.escrowAccounts.find? (fun e => decide (e.id = aid)) = some cur)
    (hge2 : amount ≤ cur.heldAmount)
    (hA : db2.escrowAccounts = updateWhere db.escrowAccounts
      (fun e => decide (e.id = aid))
      (fun e => { e with heldAmount := e.heldAmount - amount }))
    (hT : db2.escrowTxs = db.escrowTxs ++ [t])
    (ht1 : t.escrowAccountId = aid)
    (ht2 : t.type = EscrowTransactionType.RELEASE ∨
           t.type = EscrowTransactionType.REFUND)
    (ht3 : t.amount = amount)
    (h : escrowLedgerOk db) : escrowLedgerOk db2 := by
  obtain ⟨hnd, hinv⟩ := h
  have hcurmem : cur ∈ db.escrowAccounts := List.mem_of_find?_eq_some hfind
  have hcurid0 := List.find?_some hfind
  have hcurid : cur.id = aid := of_decide_eq_true hcurid0
  have hkeys := updateWhere_map_key db.escrowAccounts
    (fun e => decide (e.id = aid))
    (fun e => ({ e with heldAmount := e.heldAmount - amount } : EscrowAccount))
    (fun e => e.id) (fun x _ => rfl)
  constructor
  · rw [hA, hkeys]
    exact hnd
  · intro e2 he2
    rw [hA] at he2
    rw [hT]
    obtain ⟨e, he, hge⟩ := List.mem_map.mp he2
    obtain ⟨heq, hnn⟩ := hinv e he
    by_cases hid : e.id = aid
    · rw [if_pos (decide_eq_true hid)] at hge
      subst hge
      have hecur : e = cur :=
        eq_of_mem_nodup_key db.escrowAccounts (fun x => x.id) hnd he hcurmem
          (hid.trans hcurid.symm)
      constructor
      · show e.heldAmount - amount
          = e.initialAmount
            + escrowSumTx (db.escrowTxs ++ [t]) e.id EscrowTransactionType.DEPOSIT
            - escrowSumTx (db.escrowTxs ++ [t]) e.id EscrowTransactionType.RELEASE
            - escrowSumTx (db.escrowTxs ++ [t]) e.id EscrowTransactionType.REFUND
        rw [escrowSumTx_append, escrowSumTx_append, escrowSumTx_append, ht3]
        rcases ht2 with ht2 | ht2
        · rw [if_pos (⟨ht1.trans hid.symm, ht2⟩ :
                t.escrowAccountId = e.id ∧ t.type = EscrowTransactionType.RELEASE)]
          rw [if_neg (show ¬ (t.escrowAccountId = e.id ∧
                t.type = EscrowTransactionType.DEPOSIT) by simp [ht2])]
          rw [if_neg (show ¬ (t.escrowAccountId = e.id ∧
                t.type = EscrowTransactionType.REFUND) by simp [ht2])]
          omega
        · rw [if_pos (⟨ht1.trans hid.symm, ht2⟩ :
                t.escrowAccountId = e.id ∧ t.type = EscrowTransactionType.REFUND)]
          rw [if_neg (show ¬ (t.escrowAccountId = e.id ∧
                t.type = EscrowTransactionType.DEPOSIT) by simp [ht2])]
          rw [if_neg (show ¬ (t.escrowAccountId = e.id ∧
                t.type = EscrowTransactionType.RELEASE) by simp [ht2])]
          omega
      · show 0 ≤ e.heldAmount - amount
        rw [hecur]
        omega
    · rw [if_neg (by simp [hid])] at hge
      subst hge
      have hno : ∀ ty, escrowSumTx (db.escrowTxs ++ [t]) e.id ty
          = escrowSumTx db.escrowTxs e.id ty := by
        intro ty
        rw [escrowSumTx_append,
            if_neg (show ¬ (t.escrowAccountId = e.id ∧ t.type = ty) from
              fun hcon => hid (ht1.symm.trans hcon.1).symm)]
        omega
      rw [hno, hno, hno]
      exact ⟨heq, hnn⟩

lemma releaseFundsBody_no_escrow (db : Db) (cid : String) (amount : Int)
    (c : Contract) (esc : EscrowAccount)
    (hre : db.escrowAccounts.find? (fun e => decide (e.id = esc.id)) = none) :
    EscrowService.releaseFundsBody c esc cid amount db
      = (some Err.insufficientFunds, db) := by
  unfold EscrowService.releaseFundsBody
  rw [hre]

lemma refundFunds_eq_tx (db : Db) (cid : String) (amount : Int)
    (isSystemRefund : Bool) (c : Contract) (esc : EscrowAccount)
    (ha : 0 < amount)
    (hgc : EscrowService.getContractWithEscrow db cid = Except.ok (c, esc)) :
    EscrowService.refundFunds cid amount isSystemRefund db
      = prismaTransaction
          (EscrowService.refundFundsBody c esc cid amount isSystemRefund) db := by
  unfold EscrowService.refundFunds
  rw [if_neg (by omega), hgc]

lemma refundFundsBody_no_escrow (db : Db) (cid : String) (amount : Int)
    (isSystemRefund : Bool) (c : Contract) (esc : EscrowAccount)
    (hre : db.escrowAccounts.find? (fun e => decide (e.id = esc.id)) = none) :
    EscrowService.refundFundsBody c esc cid amount isSystemRefund db
      = (some Err.insufficientFunds, db) := by
  unfold EscrowService.refundFundsBody
  rw [hre]

lemma refundFundsBody_low_held (db : Db) (cid : String) (amount : Int)
    (isSystemRefund : Bool) (c : Contract) (esc : EscrowAccount)
    (cur : EscrowAccount)
    (hre : db.escrowAccounts.find? (fun e => decide (e.id = esc.id)) = some cur)
    (hlt : cur.heldAmount < amount) :
    EscrowService.refundFundsBody c esc cid amount isSystemRefund db
      = (some Err.insufficientFunds, db) := by
  unfold EscrowService.refundFundsBody
  rw [hre]
  simp [hlt]

lemma refundFundsBody_no_client_wallet (db : Db) (cid : String) (amount : Int)
    (isSystemRefund : Bool) (c : Contract) (esc : EscrowAccount)
    (cur : EscrowAccount)
    (hre : db.escrowAccounts.find? (fun e => decide (e.id = esc.id)) = some cur)
    (hge : amount ≤ cur.heldAmount)
    (hcw : db.wallets.find? (fun w => decide (w.userId = c.clientId)) = none) :
    EscrowService.refundFundsBody c esc cid amount isSystemRefund db
      = (some Err.recordNotFound,
         { db with escrowAccounts := (updateWhere db.escrowAccounts
             (fun e => decide (e.id = esc.id))
             (fun e => { e with heldAmount := e.heldAmount - amount })) }) := by
  have hnl : ¬ (cur.heldAmount < amount) := by omega
  unfold EscrowService.refundFundsBody
  rw [hre]
  simp only [hnl, if_false, hcw]

lemma refundFundsBody_success (db : Db) (cid : String) (amount : Int)
    (isSystemRefund : Bool) (c : Contract) (esc : EscrowAccount)
    (cur : EscrowAccount) (cw : Wallet)
    (hre : db.escrowAccounts.find? (fun e => decide (e.id = esc.id)) = some cur)
    (hge : amount ≤ cur.heldAmount)
    (hcw : db.wallets.find? (fun w => decide (w.userId = c.clientId)) = some cw) :
    EscrowService.refundFundsBody c esc cid amount isSystemRefund db
      = (none,
         { db with
           escrowAccounts := (updateWhere db.escrowAccounts
             (fun e => decide (e.id = esc.id))
             (fun e => { e with heldAmount := e.heldAmount - amount })),
           wallets := (updateWhere db.wallets
             (fun x => decide (x.userId = c.clientId))
             (fun x => { x with availableBalance := x.availableBalance + amount })),
           escrowTxs := (db.escrowTxs ++
             [({ escrowAccountId := esc.id, amount := amount,
                 type := EscrowTransactionType.REFUND, sourceWalletId := none,
                 destinationWalletId := some cw.id,
                 description := "Refund for contract " ++ cid ++ " (System: " ++
                   (if isSystemRefund then "true" else "false") ++ ")" }
                 : EscrowTransaction)]),
           walletTxs := (db.walletTxs ++
             [({ walletId := cw.id, amount := amount,
                 type := TransactionType.ADJUSTMENT, relatedId := some cid,
                 metadata := "Escrow Refund from Contract " ++ cid }
                 : WalletTransaction)]) }) := by
  have hnl : ¬ (cur.heldAmount < amount) := by omega
  unfold EscrowService.refundFundsBody
  rw [hre]
  simp only [hnl, if_false, hcw]

lemma depositFunds_preserves_ledger (uid cid : String) (amount : Int) (db : Db)
    (h : escrowLedgerOk db) :
    escrowLedgerOk (EscrowService.depositFunds uid cid amount db).db := by
  by_cases ha : amount ≤ 0
  · unfold EscrowService.depositFunds
    rw [if_pos ha]
    exact h
  · cases hgc : EscrowService.getContractWithEscrow db cid with
    | error e =>
      have hout : EscrowService.depositFunds uid cid amount db = ⟨db, some e⟩ := by
        unfold EscrowService.depositFunds
        rw [if_neg ha, hgc]
      rw [hout]
      exact h
    | ok p =>
      obtain ⟨c, esc⟩ := p
      by_cases hcl : c.clientId = uid
      · rw [depositFunds_eq_tx db uid cid amount c esc (by omega) hgc hcl]
        cases hw : db.wallets.find? (fun x => decide (x.userId = uid)) with
        | none =>
          rw [prismaTransaction_of_body_some _ db db _
            (depositFundsBody_no_wallet db uid cid amount esc hw)]
          exact h
        | some w =>
          by_cases hlt : w.availableBalance < amount
          · rw [prismaTransaction_of_body_some _ db db _
              (depositFundsBody_low_balance db uid cid amount esc w hw hlt)]
            exact h
          · rw [prismaTransaction_of_body_none _ db _
              (depositFundsBody_success db uid cid amount esc w hw (by omega))]
            exact escrowLedgerOk_add db _ esc.id amount _ (by omega)
              rfl rfl rfl rfl rfl h
      · have hout : EscrowService.depositFunds uid cid amount db
            = ⟨db, some Err.unauthorizedClient⟩ := by
          unfold EscrowService.depositFunds
          rw [if_neg ha, hgc]
          simp [hcl]
        rw [hout]
        exact h

lemma releaseFunds_preserves_ledger (uid cid : String) (amount : Int) (db : Db)
    (h : escrowLedgerOk db) :
    escrowLedgerOk (EscrowService.releaseFunds uid cid amount db).db := by
  by_cases ha : amount ≤ 0
  · unfold EscrowService.releaseFunds
    rw [if_pos ha]
    exact h
  · cases hgc : EscrowService.getContractWithEscrow db cid with
    | error e =>
      have hout : EscrowService.releaseFunds uid cid amount db = ⟨db, some e⟩ := by
        unfold EscrowService.releaseFunds
        rw [if_neg ha, hgc]
      rw [hout]
      exact h
    | ok p =>
      obtain ⟨c, esc⟩ := p
      by_cases hcl : c.clientId = uid
      · rw [releaseFunds_eq_tx db uid cid amount c esc (by omega) hgc hcl]
        cases hre : db.escrowAccounts.find? (fun e => decide (e.id = esc.id)) with
        | none =>
          rw [prismaTransaction_of_body_some _ db db _
            (releaseFundsBody_no_escrow db cid amount c esc hre)]
          exact h
        | some cur =>
          by_cases hlt : cur.heldAmount < amount
          · rw [prismaTransaction_of_body_some _ db db _
              (releaseFundsBody_low_held db cid amount c esc cur hre hlt)]
            exact h
          · by_cases hcnt : (db.wallets.filter
                (fun w => decide (w.userId = c.freelancerId) &&
                  isActiveFreelancer db.users w.userId)).length = 0
            · rw [prismaTransaction_of_body_some _ db _ _
                (releaseFundsBody_no_valid_wallet db cid amount c esc cur
                  (by omega) hre (by omega) hcnt)]
              exact h
            · have hpos2 : 0 < (db.wallets.filter
                  (fun w => decide (w.userId = c.freelancerId) &&
                    isActiveFreelancer db.users w.userId)).length :=
                Nat.pos_of_ne_zero hcnt
              obtain ⟨x, hx⟩ := List.exists_mem_of_length_pos hpos2
              have hxmem := (List.mem_filter.mp hx).1
              have hxp := (List.mem_filter.mp hx).2
              have hxq : decide (x.userId = c.freelancerId) = true := by
                cases hq : decide (x.userId = c.freelancerId)
                · rw [hq] at hxp; simp at hxp
                · rfl
              have hxact : isActiveFreelancer db.users x.userId = true := by
                cases hq : isActiveFreelancer db.users x.userId
                · rw [hq] at hxp; simp at hxp
                · rfl
              have hxid : x.userId = c.freelancerId := of_decide_eq_true hxq
              have hact : isActiveFreelancer db.users c.freelancerId = true := by
                rw [← hxid]
                exact hxact
              obtain ⟨fw, hfw⟩ := find?_isSome_of_mem db.wallets
                (fun w => decide (w.userId = c.freelancerId)) x hxmem hxq
              rw [prismaTransaction_of_body_none _ db _
                (releaseFundsBody_success db cid amount c esc cur fw
                  (by omega) hre (by omega) hact hfw)]
              exact escrowLedgerOk_sub db _ esc.id amount _ cur hre (by omega)
                rfl rfl rfl (Or.inl rfl) rfl h
      · have hout : EscrowService.releaseFunds uid cid amount db
            = ⟨db, some Err.unauthorizedClient⟩ := by
          unfold EscrowService.releaseFunds
          rw [if_neg ha, hgc]
          simp [hcl]
        rw [hout]
        exact h

lemma refundFunds_preserves_ledger (cid : String) (amount : Int)
    (isSystemRefund : Bool) (db : Db) (h : escrowLedgerOk db) :
    escrowLedgerOk (EscrowService.refundFunds cid amount isSystemRefund db).db := by
  by_cases ha : amount ≤ 0
  · unfold EscrowService.refundFunds
    rw [if_pos ha]
    exact h
  · cases hgc : EscrowService.getContractWithEscrow db cid with
    | error e =>
      have hout : EscrowService.refundFunds cid amount isSystemRefund db
          = ⟨db, some e⟩ := by
        unfold EscrowService.refundFunds
        rw [if_neg ha, hgc]
      rw [hout]
      exact h
    | ok p =>
      obtain ⟨c, esc⟩ := p
      rw [refundFunds_eq_tx db cid amount isSystemRefund c esc (by omega) hgc]
      cases hre : db.escrowAccounts.find? (fun e => decide (e.id = esc.id)) with
      | none =>
        rw [prismaTransaction_of_body_some _ db db _
          (refundFundsBody_no_escrow db cid amount isSystemRefund c esc hre)]
        exact h
      | some cur =>
        by_cases hlt : cur.heldAmount < amount
        · rw [prismaTransaction_of_body_some _ db db _
            (refundFundsBody_low_held db cid amount isSystemRefund c esc cur hre hlt)]
          exact h
        · cases hcw : db.wallets.find? (fun w => decide (w.userId = c.clientId)) with
          | none =>
            rw [prismaTransaction_of_body_some _ db _ _
              (refundFundsBody_no_client_wallet db cid amount isSystemRefund
                c esc cur hre (by omega) hcw)]
            exact h
          | some cw =>
            rw [prismaTransaction_of_body_none _ db _
              (refundFundsBody_success db cid amount isSystemRefund c esc cur cw
                hre (by omega) hcw)]
            exact escrowLedgerOk_sub db _ esc.id amount _ cur hre (by omega)
              rfl rfl rfl (Or.inr rfl) rfl h

instance escrowLedgerOk_decidable (db : Db) : Decidable (escrowLedgerOk db) := by
  unfold escrowLedgerOk
  infer_instance

/-- Claim C1: the ledger reconciliation invariant — every escrow account
satisfies heldAmount = initialAmount plus recorded deposits minus releases
minus refunds, with heldAmount never negative — is preserved by every
sequence of depositFunds, releaseFunds and refundFunds calls, succeeding or
rejected.  A fresh account satisfies it by the migration defaults
(held_amount 0, initial_amount 0, empty log). -/
theorem claim_C1_ledger_reconciliation (ops : List EscrowOp) (db : Db)
    (h : escrowLedgerOk db) : escrowLedgerOk (applyEscrowOps ops db) := by
  induction ops generalizing db with
  | nil =>
    simpa [applyEscrowOps] using h
  | cons op rest ih =>
    have hstep : escrowLedgerOk (applyEscrowOp op db) := by
      cases op with
      | deposit uid cid amount => exact depositFunds_preserves_ledger uid cid amount db h
      | release uid cid amount => exact releaseFunds_preserves_ledger uid cid amount db h
      | refund cid amount isSystemRefund =>
        exact refundFunds_preserves_ledger cid amount isSystemRefund db h
    exact ih (applyEscrowOp op db) hstep

/-- Witness for C1: the sample store satisfies the invariant, and still does
after a deposit of 10000, a release of 4000, a rejected refund of 20000 and a
refund of 3000 on contract ct. -/
theorem claim_C1_witness :
    escrowLedgerOk sampleDb ∧
    escrowLedgerOk (applyEscrowOps
      [EscrowOp.deposit "uc" "ct" 10000, EscrowOp.release "uc" "ct" 4000,
       EscrowOp.refund "ct" 20000 true, EscrowOp.refund "ct" 3000 true]
      sampleDb) :=
  ⟨by decide,
   claim_C1_ledger_reconciliation
     [EscrowOp.deposit "uc" "ct" 10000, EscrowOp.release "uc" "ct" 4000,
      EscrowOp.refund "ct" 20000 true, EscrowOp.refund "ct" 3000 true]
     sampleDb (by decide)⟩

end Rizlax
